/-
Verification development for the particle-based intermolecular-forces
simulation in `public/scripts/imfs.js` (the current version of the file,
i.e. the part containing the state classifier, heating and collision
wall re-clamping; all cited line numbers refer to it).

Modelling conventions:
* JavaScript numbers are modelled by exact rationals `ℚ`.
* `Math.sqrt` / `Math.hypot` are modelled by an explicit square-root
  oracle `sq : ℚ → ℚ` passed to every definition that needs it
  (`hypot sq x y = sq (x*x + y*y)`); theorems constrain the oracle on
  exactly the arguments the code feeds it, via `SqrtAt`.
* `Math.random()` / the Box-Muller draw are modelled by noise streams in
  an `Env` record; theorems hold for arbitrary noise where the code's
  behaviour does not depend on it.
* `performance.now()` is modelled by clock streams in the same record.
* the JavaScript `a || b` fallback on numbers is modelled by `orQ`
  (`0` is the only falsy rational reachable here).
-/
import Mathlib

namespace IMFS

/-- `clamp(value, min, max)` from imfs.js (`Math.max(min, Math.min(max, value))`). -/
def clamp (value lo hi : ℚ) : ℚ := max lo (min hi value)

/-- JavaScript's `x || d` fallback for numeric `x`: `0` is falsy. -/
def orQ (x d : ℚ) : ℚ := if x = 0 then d else x

/-- 2D vector addition `vAdd` from imfs.js. -/
def vAdd (a b : ℚ × ℚ) : ℚ × ℚ := (a.1 + b.1, a.2 + b.2)

/-- 2D scalar multiplication `vMul` from imfs.js. -/
def vMul (a : ℚ × ℚ) (k : ℚ) : ℚ × ℚ := (a.1 * k, a.2 * k)

/-- Vector negation (used to state Newton's-third-law symmetry). -/
def vNeg (a : ℚ × ℚ) : ℚ × ℚ := (-a.1, -a.2)

/-- `Math.hypot(x, y)` through the square-root oracle. -/
def hypotE (sq : ℚ → ℚ) (x y : ℚ) : ℚ := sq (x * x + y * y)

/-- `vLen` from imfs.js (`Math.hypot(a[0], a[1])`). -/
def vLen (sq : ℚ → ℚ) (a : ℚ × ℚ) : ℚ := hypotE sq a.1 a.2

/-- `vNorm` from imfs.js: normalize, with a `1e-12` degeneracy threshold. -/
def vNorm (sq : ℚ → ℚ) (a : ℚ × ℚ) : ℚ × ℚ :=
  let L := vLen sq a
  if 1e-12 < L then (a.1 / L, a.2 / L) else (0, 0)

/-- The oracle `sq` agrees with the real square root at argument `q`. -/
def SqrtAt (sq : ℚ → ℚ) (q : ℚ) : Prop := 0 ≤ sq q ∧ sq q * sq q = q

/-- Liquid/gas phase of a particle (`state` field). -/
inductive Phase where
  | liquid : Phase
  | gas : Phase
deriving DecidableEq, Repr

/-- The particle record of imfs.js (`makeParticle` plus the fields the
engine mutates; `angle`/`angVel`/`kind` are render-only and omitted). -/
structure Particle where
  pos : ℚ × ℚ
  vel : ℚ × ℚ
  acc : ℚ × ℚ
  mass : ℚ
  radius : ℚ
  state : Phase
  gasUntil : ℚ
  localNeighbors : ℕ
  thermalEnergy : ℚ
  lastStateChange : ℚ
deriving DecidableEq, Repr

instance : Inhabited Particle :=
  ⟨{ pos := (0, 0), vel := (0, 0), acc := (0, 0), mass := 1, radius := 3,
     state := .liquid, gasUntil := 0, localNeighbors := 0,
     thermalEnergy := 0, lastStateChange := 0 }⟩

/-- Scenario parameters consumed by the engine (`this.params`). -/
structure SimParams where
  epsilon : ℚ
  sigma : ℚ
  viscosity : ℚ
  hbStrength : ℚ
  dipole : ℚ
  kT : ℚ
  cohLJ : ℚ
  cohHB : ℚ
  cohDP : ℚ
deriving DecidableEq, Repr

/-- The scalar `mag` of `ljForce(rVec)` (imfs.js lines 230-248) as a
function of `r`: `epsilon = 0.3 + 0.5 * viscosity`, zeroed beyond the
cutoff `2.5 * sigma`, then clamped to `[-60, 60]`. -/
def ljMag (P : SimParams) (r : ℚ) : ℚ :=
  let epsilon := 0.3 + 0.5 * P.viscosity
  let sr := P.sigma / r
  let sr2 := sr * sr
  let sr6 := sr2 * sr2 * sr2
  let sr12 := sr6 * sr6
  let mag0 := 24 * epsilon * (2 * sr12 - sr6) * (1 / r)
  let rCut := 2.5 * P.sigma
  let mag1 := if rCut < r then 0 else mag0
  clamp mag1 (-60) 60

/-- `ljForce(rVec)` from imfs.js lines 230-248: soft-capped Lennard-Jones
force, `vMul(vNorm(rVec), -mag)` with `mag = ljMag` at `r = |rVec| + 1e-9`. -/
def ljForce (sq : ℚ → ℚ) (P : SimParams) (rVec : ℚ × ℚ) : ℚ × ℚ :=
  vMul (vNorm sq rVec) (-ljMag P (vLen sq rVec + 1e-9))

/-- `hbForce(rVec)` from imfs.js lines 250-260: hydrogen-bond proxy,
linear decay to a `1.8 * sigma` cutoff, zero for `hbStrength ≤ 0`. -/
def hbForce (sq : ℚ → ℚ) (P : SimParams) (rVec : ℚ × ℚ) : ℚ × ℚ :=
  let r := vLen sq rVec + 1e-9
  let E := P.hbStrength
  if E ≤ 0 then (0, 0)
  else
    let rCut := 1.8 * P.sigma
    if rCut < r then (0, 0)
    else
      let f := -E * 1 * max 0 (1 - r / rCut)
      vMul (vNorm sq rVec) f

/-- `dipoleForce(rVec)` from imfs.js lines 262-271: dipole proxy with
inverse-square falloff and a `2.2 * sigma` cutoff, zero for `dipole ≤ 0`. -/
def dipoleForce (sq : ℚ → ℚ) (P : SimParams) (rVec : ℚ × ℚ) : ℚ × ℚ :=
  let r := vLen sq rVec + 1e-9
  let D := P.dipole
  if D ≤ 0 then (0, 0)
  else
    let rCut := 2.2 * P.sigma
    if rCut < r then (0, 0)
    else
      let f := -D * (1 / (r * r)) * max 0.1 (1 - r / rCut)
      vMul (vNorm sq rVec) f

/-- The weighted per-pair force summed into `a.acc` by `computeForces`
(imfs.js lines 295-313), as a function of the two particles' phases and
the displacement `rVec = b.pos - a.pos`:
`gasScale` is `0.2` when either phase is gas, `liquidCohesionBoost` is
`1.3` when both are liquid, and the scenario coefficients fall back to
`1` through `||`. -/
def pairContrib (sq : ℚ → ℚ) (P : SimParams) (sa sb : Phase) (rVec : ℚ × ℚ) : ℚ × ℚ :=
  let bothLiquid := sa = Phase.liquid ∧ sb = Phase.liquid
  let gasScale : ℚ := if sa = Phase.gas ∨ sb = Phase.gas then 0.2 else 1.0
  let liquidCohesionBoost : ℚ := if bothLiquid then 1.3 else 1.0
  let fLJ := vMul (ljForce sq P rVec) (orQ P.cohLJ 1 * liquidCohesionBoost)
  let fHB := vMul (hbForce sq P rVec) (orQ P.cohHB 1 * liquidCohesionBoost)
  let fDP := vMul (dipoleForce sq P rVec) (orQ P.cohDP 1)
  vAdd (vAdd (vMul fLJ gasScale) (vMul fHB gasScale)) (vMul fDP gasScale)

/-- The list of integers `a, a+1, …, b` (empty when `b < a`); models the
`for (c = min; c <= max; c++)` loops of `forNeighbors`. -/
def intRange (a b : ℤ) : List ℤ :=
  (List.range (b - a + 1).toNat).map (fun k : ℕ => a + (k : ℤ))

/-- Concatenation of `f` over a list (models running the callback over
each visited cell in order). -/
def concatMap (f : α → List β) : List α → List β
  | [] => []
  | a :: l => f a ++ concatMap f l

/-- Effective cell size of `NeighborGrid` (`Math.max(8, cellSize)`). -/
def gCell (cellSize : ℚ) : ℚ := max 8 cellSize

/-- Column count of `NeighborGrid` (`Math.max(1, Math.floor(width / cellSize))`). -/
def gCols (width cellSize : ℚ) : ℕ := max 1 ⌊width / gCell cellSize⌋.toNat

/-- Row count of `NeighborGrid`. -/
def gRows (height cellSize : ℚ) : ℕ := max 1 ⌊height / gCell cellSize⌋.toNat

/-- `NeighborGrid.cellIndex(x, y)` (imfs.js lines 58-69): floor-divide by
the cell size and clamp to the valid grid bounds (no wrapping). -/
def cellIndexG (width height cellSize : ℚ) (x y : ℚ) : ℕ :=
  let cols := gCols width cellSize
  let rows := gRows height cellSize
  let cx := (min ((cols : ℤ) - 1) (max 0 ⌊x / gCell cellSize⌋)).toNat
  let cy := (min ((rows : ℤ) - 1) (max 0 ⌊y / gCell cellSize⌋)).toNat
  cy * cols + cx

/-- The bucket of cell `idx` after `clear()` followed by `insert` of every
particle of `ps` in order: the indices of the particles whose (clamped)
cell is `idx`, in insertion order. -/
def bucketG (width height cellSize : ℚ) (ps : List Particle) (idx : ℕ) : List ℕ :=
  (List.range ps.length).filter
    (fun i => cellIndexG width height cellSize (ps.getD i default).pos.1
        (ps.getD i default).pos.2 = idx)

/-- `NeighborGrid.forNeighbors(x, y, radius, fn)` (imfs.js lines 75-92):
the indices of the particles the callback is invoked on, in visit order.
Cells outside the grid bounds are skipped (`continue`). -/
def forNeighborsG (width height cellSize : ℚ) (ps : List Particle)
    (x y radius : ℚ) : List ℕ :=
  let cs := gCell cellSize
  let cols := gCols width cellSize
  let rows := gRows height cellSize
  let minCx := ⌊(x - radius) / cs⌋
  let maxCx := ⌊(x + radius) / cs⌋
  let minCy := ⌊(y - radius) / cs⌋
  let maxCy := ⌊(y + radius) / cs⌋
  concatMap (fun cy =>
    concatMap (fun cx =>
      if cx < 0 ∨ (cols : ℤ) ≤ cx ∨ cy < 0 ∨ (rows : ℤ) ≤ cy then []
      else bucketG width height cellSize ps (cy.toNat * cols + cx.toNat))
      (intRange minCx maxCx))
    (intRange minCy maxCy)

/-- Random values consumed by one particle inside the heating block:
`vibX`/`vibY` are the `Math.random()` draws of the vibration terms and
`dirX`/`dirY` stand for `Math.cos(ang)` / `Math.sin(ang)` of the random
angle used when the particle is almost at rest. -/
structure HeatNoise where
  vibX : ℚ
  vibY : ℚ
  dirX : ℚ
  dirY : ℚ

/-- The ambient nondeterminism of one `step` call: the square-root
oracle, the `performance.now()` clocks (indexed by substep) and the
random streams (indexed by substep and particle). -/
structure Env where
  sq : ℚ → ℚ
  clockT : ℕ → ℚ
  clockS : ℕ → ℚ
  kick : ℕ → ℕ → ℚ × ℚ
  heat : ℕ → ℕ → HeatNoise
  vib : ℕ → ℕ → ℚ × ℚ

/-- The simulation state an `IMFSim` instance carries between frames
(rendering-only fields omitted). -/
structure SimState where
  particles : List Particle
  width : ℚ
  height : ℚ
  params : SimParams
  gravityOn : Bool
  heatingOn : Bool
  heatAccel : ℚ
  lastThermoMs : ℚ

/-- `List.map` with the element index (models indexed `for` loops). -/
def mapIdxFrom (f : ℕ → α → β) : ℕ → List α → List β
  | _, [] => []
  | n, a :: l => f n a :: mapIdxFrom f (n + 1) l

/-- Indexed map starting at index 0. -/
def mapIdx (f : ℕ → α → β) (l : List α) : List β := mapIdxFrom f 0 l

/-- `n`-fold iteration of `f`. -/
def iterateN (f : α → α) : ℕ → α → α
  | 0, a => a
  | n + 1, a => iterateN f n (f a)

/-- `wrap(p)` from imfs.js lines 225-228: the body is commented out —
"disabled; using wall collisions instead" — so it changes nothing. -/
def wrap (p : Particle) : Particle := p

/-- First reset loop of `computeForces` (lines 279-282): zero the
acceleration and the local-neighbor count of every particle. -/
def forcesReset (ps : List Particle) : List Particle :=
  ps.map (fun p => { p with acc := (0, 0), localNeighbors := 0 })

/-- The body of the force loop of `computeForces` (lines 283-315) for
particle `i`: fold the neighbor callback over the visited indices,
accumulating the pair force into `acc` and counting neighbors closer
than `2.4 * sigma`. -/
def forceAt (sq : ℚ → ℚ) (P : SimParams) (w h : ℚ) (ps : List Particle) (i : ℕ) : Particle :=
  let a := ps.getD i default
  let densityCut := 2.4 * P.sigma
  let visited := forNeighborsG w h 24 ps a.pos.1 a.pos.2 28
  let res := visited.foldl (fun (r : (ℚ × ℚ) × ℕ) j =>
    if j = i then r else
      let b := ps.getD j default
      let dx := b.pos.1 - a.pos.1
      let dy := b.pos.2 - a.pos.2
      let dist := hypotE sq dx dy
      let nb := if dist < densityCut then r.2 + 1 else r.2
      (vAdd r.1 (pairContrib sq P a.state b.state (dx, dy)), nb)) (a.acc, a.localNeighbors)
  { a with acc := res.1, localNeighbors := res.2 }

/-- The full force loop: every particle updated against the same
snapshot (positions and states are not mutated inside the loop). -/
def forcesLoop (sq : ℚ → ℚ) (P : SimParams) (w h : ℚ) (ps : List Particle) : List Particle :=
  (List.range ps.length).map (forceAt sq P w h ps)

/-- Drag and Langevin kick (lines 316-324): `gamma = 0.3` fixed,
`kickSigma = sqrt(2 * gamma * max(0, kT))`. -/
def dragKick (E : Env) (sIdx : ℕ) (P : SimParams) (ps : List Particle) : List Particle :=
  let gamma : ℚ := 0.3
  let kT := max 0 P.kT
  let kickSigma := E.sq (2 * gamma * kT)
  mapIdx (fun i p =>
    { p with acc := (p.acc.1 + (-gamma * p.vel.1 + (E.kick sIdx i).1 * kickSigma),
                     p.acc.2 + (-gamma * p.vel.2 + (E.kick sIdx i).2 * kickSigma)) }) ps

/-- Eligibility for the periodic thermostat (line 338): particles that
are not in a dense liquid blob. -/
def thermoElig (p : Particle) : Prop := p.localNeighbors < 3 ∨ p.state = Phase.gas

instance (p : Particle) : Decidable (thermoElig p) := by
  unfold thermoElig; infer_instance

/-- Kinetic energy `0.5 * (p.mass || 1) * |v|^2` (line 340). -/
def keOf (p : Particle) : ℚ :=
  0.5 * orQ p.mass 1 * (p.vel.1 * p.vel.1 + p.vel.2 * p.vel.2)

/-- The periodic velocity-rescaling thermostat (lines 325-367): fires
when more than 500 ms have passed, rescales the non-dense/gas particles
by a factor clamped to `[0.9, 1.1]` when it differs from 1 by more than
0.02, and records the firing time. Returns the new particle list and
the new `lastThermoMs`. -/
def thermostat (E : Env) (sIdx : ℕ) (P : SimParams) (lastThermoMs : ℚ)
    (ps : List Particle) : List Particle × ℚ :=
  let nowT := E.clockT sIdx
  let lt := if lastThermoMs = 0 then nowT else lastThermoMs
  if 500 < nowT - lt then
    let kT := max 0 P.kT
    let sel := ps.filter (fun p => decide (thermoElig p))
    let keSum := sel.foldl (fun s p => s + keOf p) 0
    if 0 < sel.length then
      let keAvg := keSum / (sel.length : ℚ)
      let keTarget := 40 * (kT + 0.05)
      let s := max 0.9 (min 1.1 (E.sq (max 1e-6 (keTarget / max 1e-6 keAvg))))
      let ps1 := if 0.02 < |s - 1| then
          ps.map (fun p => if thermoElig p then { p with vel := (p.vel.1 * s, p.vel.2 * s) } else p)
        else ps
      (ps1, nowT)
    else (ps, nowT)
  else (ps, lt)

/-- `computeForces` (lines 273-368): neighbor rebuild + pair forces,
then drag/kick, then the periodic thermostat. -/
def computeForces (E : Env) (sIdx : ℕ) (st : SimState) : SimState :=
  let ps1 := forcesReset st.particles
  let ps2 := forcesLoop E.sq st.params st.width st.height ps1
  let ps3 := dragKick E sIdx st.params ps2
  let r := thermostat E sIdx st.params st.lastThermoMs ps3
  { st with particles := r.1, lastThermoMs := r.2 }

/-- Uniform gravity `g = 900` (lines 391-395), when enabled. -/
def gravityPhase (st : SimState) : SimState :=
  if st.gravityOn then
    { st with
      particles := st.particles.map (fun p => { p with acc := (p.acc.1, p.acc.2 + 900) }) }
  else st

/-- The per-particle body of the heating block (lines 410-539):
stovetop heating with three hotspots in the bottom 10 % of the
container, thermal-energy accumulation/dissipation, buoyant upward
acceleration, velocity boosts and random vibration. -/
def heatParticle (E : Env) (sIdx i : ℕ) (w h heatAccel dtStep : ℚ) (p : Particle) : Particle :=
  let heatingZoneHeight := h * 0.1
  let heatingZoneTop := h - heatingZoneHeight
  let minHeatIntensity : ℚ := 0.2
  let hotspotSpacing := w / 4
  let hotspotRadius := w * 0.15
  let r := orQ p.radius 3
  let particleBottom := p.pos.2 + r
  let particleX := p.pos.1
  let N := E.heat sIdx i
  if heatingZoneTop ≤ particleBottom then
    let distFromBottom := h - particleBottom
    let normalizedDist := max 0 (min 1 (distFromBottom / heatingZoneHeight))
    let verticalIntensity := 1 - normalizedDist * (1 - minHeatIntensity)
    let tw := [0, 1, 2].foldl (fun (acc : ℚ × ℚ) (hIdx : ℕ) =>
        let hx := hotspotSpacing * ((hIdx : ℚ) + 1)
        let nd := |particleX - hx| / hotspotRadius
        let hi := max 0 ((1 - min 1 nd) * (1 - min 1 nd))
        if 0 < hi then (acc.1 + hi, acc.2 + hi * ([1, 0.85, 0.7].getD hIdx 1)) else acc)
      (0, 0)
    let avgHotspotStrength := if 0 < tw.1 then tw.2 / tw.1 else 0.7
    let horizontalIntensity := 0.3 + tw.1 * 0.7 * avgHotspotStrength
    let heatIntensity := verticalIntensity * horizontalIntensity
    let te1 := min 1 (p.thermalEnergy + 0.03 * heatIntensity * dtStep)
    let acc1 := (p.acc.1, p.acc.2 + te1 * (-2000))
    let vel1 := if 0.2 < te1 then (p.vel.1, p.vel.2 + te1 * (-40) * dtStep) else p.vel
    let vib := te1 * 120
    let acc2 := (acc1.1 + (N.vibX - 0.5) * vib, acc1.2 + (N.vibY - 0.5) * vib)
    let scaledAccel := heatAccel * heatIntensity
    let sp := hypotE E.sq vel1.1 vel1.2
    let acc3 := if 1e-3 < sp then
        (acc2.1 + vel1.1 / sp * scaledAccel, acc2.2 + vel1.2 / sp * scaledAccel)
      else (acc2.1 + N.dirX * scaledAccel, acc2.2 + N.dirY * scaledAccel)
    { p with thermalEnergy := te1, acc := acc3, vel := vel1 }
  else
    let te1 := max 0 (p.thermalEnergy - 0.015 * dtStep)
    if 0.1 < te1 then
      let acc1 := (p.acc.1, p.acc.2 + te1 * (-1800))
      let vel1 := if 0.2 < te1 then (p.vel.1, p.vel.2 + te1 * (-35) * dtStep) else p.vel
      let vib := te1 * 80
      let acc2 := (acc1.1 + (N.vibX - 0.5) * vib, acc1.2 + (N.vibY - 0.5) * vib)
      { p with thermalEnergy := te1, acc := acc2, vel := vel1 }
    else { p with thermalEnergy := te1 }

/-- Heating phase (lines 397-552): hotspot heating when on, otherwise
thermal dissipation at rate 0.02 per second. -/
def heatingPhase (E : Env) (sIdx : ℕ) (dtStep : ℚ) (st : SimState) : SimState :=
  if st.heatingOn then
    { st with
      particles :=
        mapIdx (fun i p => heatParticle E sIdx i st.width st.height st.heatAccel dtStep p)
          st.particles }
  else
    { st with
      particles :=
        st.particles.map (fun p =>
          { p with thermalEnergy := max 0 (p.thermalEnergy - 0.02 * dtStep) }) }

/-- Gas buoyancy `-300` (lines 553-559), when gravity is on. -/
def buoyancyPhase (st : SimState) : SimState :=
  if st.gravityOn then
    { st with
      particles := st.particles.map (fun p =>
        if p.state = Phase.gas then { p with acc := (p.acc.1, p.acc.2 - 300) } else p) }
  else st

/-- `handleWalls(p)` (lines 693-717): sequential reflecting clamps with
restitution `e = 0.2` and floor friction `fx = 0.98`. -/
def handleWalls (w h : ℚ) (p : Particle) : Particle :=
  let r := orQ p.radius 3
  let e : ℚ := 0.2
  let fx : ℚ := 0.98
  let s1 : ℚ × ℚ := if p.pos.1 < r then (r, -p.vel.1 * e) else (p.pos.1, p.vel.1)
  let s2 : ℚ × ℚ := if w - r < s1.1 then (w - r, -s1.2 * e) else s1
  let s3 : ℚ × ℚ × ℚ :=
    if p.pos.2 < r then (r, -p.vel.2 * e, s2.2 * fx) else (p.pos.2, p.vel.2, s2.2)
  let s4 : ℚ × ℚ × ℚ :=
    if h - r < s3.1 then (h - r, -s3.2.1 * e, s3.2.2 * fx) else s3
  { p with pos := (s2.1, s4.1), vel := (s4.2.2, s4.2.1) }

/-- Explicit-Euler integration of one particle plus the thermal velocity
vibration and the wall clamp (lines 561-579). -/
def integrateParticle (E : Env) (sIdx i : ℕ) (w h dtStep : ℚ) (p : Particle) : Particle :=
  let vel1 := (p.vel.1 + p.acc.1 / p.mass * dtStep, p.vel.2 + p.acc.2 / p.mass * dtStep)
  let pos1 := (p.pos.1 + vel1.1 * dtStep, p.pos.2 + vel1.2 * dtStep)
  let vel2 := if 0.1 < p.thermalEnergy then
      let s := p.thermalEnergy * 8
      (vel1.1 + ((E.vib sIdx i).1 - 0.5) * s, vel1.2 + ((E.vib sIdx i).2 - 0.5) * s)
    else vel1
  handleWalls w h { p with vel := vel2, pos := pos1 }

/-- Integration phase over all particles. -/
def integratePhase (E : Env) (sIdx : ℕ) (dtStep : ℚ) (st : SimState) : SimState :=
  { st with
    particles :=
      mapIdx (fun i p => integrateParticle E sIdx i st.width st.height dtStep p) st.particles }

/-- `Math.hypot(dx, dy) || 1e-9` (line 749). -/
def distOf (sq : ℚ → ℚ) (dx dy : ℚ) : ℚ :=
  let d0 := hypotE sq dx dy
  if d0 = 0 then 1e-9 else d0

/-- `(a.radius || 3) + (b.radius || 3)` (line 750). -/
def minDistOf (a b : Particle) : ℚ := orQ a.radius 3 + orQ b.radius 3

/-- The position-correction stage of the overlap branch of
`resolveCollisions` (imfs.js lines 752-796): the overlap is split
between the two particles according to inverse mass, except that a
grounded partner (within 0.6 of the floor) absorbs none of it. -/
def pairMove (h nx ny overlap : ℚ) (a b : Particle) : Particle × Particle :=
  let invMa := 1 / orQ a.mass 1
  let invMb := 1 / orQ b.mass 1
  let invSum := invMa + invMb
  let moveA0 := overlap * (invMa / max 1e-9 invSum)
  let moveB0 := overlap * (invMb / max 1e-9 invSum)
  let rA := orQ a.radius 3
  let rB := orQ b.radius 3
  let groundedA := h - rA - 0.6 ≤ a.pos.2
  let groundedB := h - rB - 0.6 ≤ b.pos.2
  let m1 : ℚ × ℚ := if ¬groundedA ∧ groundedB ∧ 0 < ny then (overlap, 0) else (moveA0, moveB0)
  let m2 : ℚ × ℚ := if groundedA ∧ ¬groundedB ∧ ny < 0 then (0, overlap) else m1
  ({ a with pos := (a.pos.1 - nx * m2.1, a.pos.2 - ny * m2.1) },
   { b with pos := (b.pos.1 + nx * m2.2, b.pos.2 + ny * m2.2) })

/-- The post-correction safety recheck of the overlap branch (imfs.js
lines 798-809): if the corrected pair is still closer than
`minDist * 0.99`, both particles are pushed apart by half the remaining
overlap along the recomputed normal. -/
def pairRecheck (sq : ℚ → ℚ) (minDist : ℚ) (a1 b1 : Particle) : Particle × Particle :=
  let dx2 := b1.pos.1 - a1.pos.1
  let dy2 := b1.pos.2 - a1.pos.2
  let dist2 := distOf sq dx2 dy2
  if dist2 < minDist * 0.99 then
    let overlap2 := minDist - dist2
    let nx2 := dx2 / dist2
    let ny2 := dy2 / dist2
    ({ a1 with pos := (a1.pos.1 - nx2 * overlap2 * 0.5, a1.pos.2 - ny2 * overlap2 * 0.5) },
     { b1 with pos := (b1.pos.1 + nx2 * overlap2 * 0.5, b1.pos.2 + ny2 * overlap2 * 0.5) })
  else (a1, b1)

/-- The velocity part of the overlap branch (imfs.js lines 811-859):
normal impulse with restitution 0.2 when the pair approaches, Coulomb
friction with `mu = 0.3`, then the thermal-conduction kinetic-energy
rescale with transfer coefficient 0.15. -/
def pairImpulse (sq : ℚ → ℚ) (nx ny : ℚ) (a2 b2 : Particle) : Particle × Particle :=
  let e : ℚ := 0.2
  let mu : ℚ := 0.3
  let rvx := b2.vel.1 - a2.vel.1
  let rvy := b2.vel.2 - a2.vel.2
  let vn := rvx * nx + rvy * ny
  if vn < 0 then
    let ma := orQ a2.mass 1
    let mb := orQ b2.mass 1
    let jimp := (-(1 + e) * vn) / (1 / ma + 1 / mb)
    let jx := jimp * nx
    let jy := jimp * ny
    let av1 := (a2.vel.1 - jx / ma, a2.vel.2 - jy / ma)
    let bv1 := (b2.vel.1 + jx / mb, b2.vel.2 + jy / mb)
    let rvx2 := bv1.1 - av1.1
    let rvy2 := bv1.2 - av1.2
    let tx0 := rvx2 - (rvx2 * nx + rvy2 * ny) * nx
    let ty0 := rvy2 - (rvx2 * nx + rvy2 * ny) * ny
    let tl := hypotE sq tx0 ty0
    let fv : (ℚ × ℚ) × ℚ × ℚ := if 1e-6 < tl then
        let tx := tx0 / tl
        let ty := ty0 / tl
        let jt := -mu * |jimp|
        ((av1.1 - jt * tx / ma, av1.2 - jt * ty / ma),
         (bv1.1 + jt * tx / mb, bv1.2 + jt * ty / mb))
      else (av1, bv1)
    let av2 := fv.1
    let bv2 := fv.2
    let keA := 0.5 * ma * (av2.1 * av2.1 + av2.2 * av2.2)
    let keB := 0.5 * mb * (bv2.1 * bv2.1 + bv2.2 * bv2.2)
    let keTotal := keA + keB
    let dE := 0.15 * (keA - keB)
    let cv : (ℚ × ℚ) × ℚ × ℚ := if 0.1 < |dE| ∧ 0.5 < keTotal then
        let newKeA := max 0.5 (keA - dE)
        let newKeB := max 0.5 (keB + dE)
        let vMagA := hypotE sq av2.1 av2.2
        let vMagB := hypotE sq bv2.1 bv2.2
        if 1e-6 < vMagA ∧ 1e-6 < vMagB then
          let scaleA := sq ((2 * newKeA) / (ma * vMagA * vMagA))
          let scaleB := sq ((2 * newKeB) / (mb * vMagB * vMagB))
          ((av2.1 * scaleA, av2.2 * scaleA), (bv2.1 * scaleB, bv2.2 * scaleB))
        else (av2, bv2)
      else (av2, bv2)
    ({ a2 with vel := cv.1 }, { b2 with vel := cv.2 })
  else (a2, b2)

/-- The body of the overlap branch of `resolveCollisions` (imfs.js
lines 752-859) on the pair `(a, b)` with query center `axy`: position
correction with grounded shock propagation (`pairMove`), safety recheck
(`pairRecheck`), then normal impulse, friction and thermal-conduction
rescale when the pair approaches (`pairImpulse`). -/
def pairResolve (sq : ℚ → ℚ) (h : ℚ) (axy : ℚ × ℚ) (a b : Particle) : Particle × Particle :=
  let dx := b.pos.1 - axy.1
  let dy := b.pos.2 - axy.2
  let dist := distOf sq dx dy
  let minDist := minDistOf a b
  let nx := dx / dist
  let ny := dy / dist
  let overlap := minDist - dist
  let ab1 := pairMove h nx ny overlap a b
  let ab2 := pairRecheck sq minDist ab1.1 ab1.2
  pairImpulse sq nx ny ab2.1 ab2.2

/-- The pair-processing callback of `resolveCollisions` (lines 732-861)
for outer particle `i` (query center `axy` captured at the start of its
iteration) against visited index `j`; the state is the particle list
plus the set of already-processed unordered pairs. -/
def pairBody (sq : ℚ → ℚ) (h : ℚ) (i : ℕ) (axy : ℚ × ℚ)
    (S : List Particle × List (ℕ × ℕ)) (j : ℕ) : List Particle × List (ℕ × ℕ) :=
  if j = i then S else
  let key := (min i j, max i j)
  if key ∈ S.2 then S else
  let ps := S.1
  let a := ps.getD i default
  let b := ps.getD j default
  if distOf sq (b.pos.1 - axy.1) (b.pos.2 - axy.2) < minDistOf a b then
    let r := pairResolve sq h axy a b
    ((ps.set i r.1).set j r.2, key :: S.2)
  else (ps, key :: S.2)

/-- `resolveCollisions` (lines 719-863): grid rebuilt from the entry
snapshot, each unordered pair processed at most once; query centers are
the live positions of the outer particle. -/
def resolveCollisions (sq : ℚ → ℚ) (w h : ℚ) (ps0 : List Particle) : List Particle :=
  ((List.range ps0.length).foldl (fun S i =>
      let a := S.1.getD i default
      (forNeighborsG w h 24 ps0 a.pos.1 a.pos.2 16).foldl (pairBody sq h i a.pos) S)
    (ps0, ([] : List (ℕ × ℕ)))).1

/-- One collision iteration followed by the wall re-clamp of every
particle (lines 581-588). -/
def collideOnce (sq : ℚ → ℚ) (w h : ℚ) (ps : List Particle) : List Particle :=
  (resolveCollisions sq w h ps).map (handleWalls w h)

/-- The 5-iteration collision loop of `step`. -/
def collisionPhase (E : Env) (st : SimState) : SimState :=
  { st with particles := iterateN (collideOnce E.sq st.width st.height) 5 st.particles }

/-- The per-particle state classifier of `step` (lines 589-689):
liquid/gas transitions with dwell times and hysteresis. -/
def classifyCore (kT viscosity height now : ℚ) (p : Particle) : Particle :=
  let epsBase := 0.15 + 0.25 * viscosity
  let v2 := p.vel.1 * p.vel.1 + p.vel.2 * p.vel.2
  let vGas2 := 120 * kT + 10 * epsBase
  let te := p.thermalEnergy
  let timeSinceStateChange := now - p.lastStateChange
  if p.state = Phase.liquid then
    let hotParticle := 0.7 < te
    let effectiveMinDuration : ℚ := if hotParticle then 300 * 0.5 else 300
    if timeSinceStateChange < effectiveMinDuration then p
    else if p.localNeighbors < 3 then
      if vGas2 * 0.9 < v2 ∧ 0.2 < te then
        { p with
          state := Phase.gas
          gasUntil := now + 1500
          lastStateChange := now
          vel := if p.vel.2 < 50 then (p.vel.1, p.vel.2 - 30) else p.vel }
      else p
    else
      let escapeThreshold := vGas2 * 1.5 * (1 - te * 0.5)
      let veryHotBonus : ℚ := if 0.7 < te then 0.2 else 0
      let finalThreshold := escapeThreshold * (1 - veryHotBonus)
      if finalThreshold < v2 ∧ 0.4 < te then
        { p with
          state := Phase.gas
          gasUntil := now + 2000
          lastStateChange := now
          vel := if p.vel.2 < 50 then (p.vel.1, p.vel.2 - 40) else p.vel }
      else p
  else
    if timeSinceStateChange < 300 then p
    else
      let isRising := p.vel.2 < -10
      let isNearTop := p.pos.2 < height * 0.2
      let condenseThreshold := if isRising then 0.3 * vGas2 else 0.5 * vGas2
      if (v2 < condenseThreshold ∧ te < 0.2 ∧ ¬isRising)
          ∨ (isNearTop ∧ te < 0.2 ∧ v2 < 0.8 * vGas2)
          ∨ (3 ≤ p.localNeighbors ∧ ¬isRising ∧ te < 0.2) then
        { p with
          state := Phase.liquid
          lastStateChange := now
          thermalEnergy := if p.pos.2 + p.radius < height * 0.9 then max 0 (te * 0.5) else te }
      else p

/-- Classifier phase over all particles. -/
def classifyPhase (E : Env) (sIdx : ℕ) (st : SimState) : SimState :=
  { st with
    particles :=
      st.particles.map (classifyCore st.params.kT st.params.viscosity st.height (E.clockS sIdx)) }

/-- One substep of `step` (lines 387-690): forces, gravity, heating,
buoyancy, integration + walls, 5 collision iterations with wall
re-clamps, then the state classifier. -/
def substepF (E : Env) (sIdx : ℕ) (dtStep : ℚ) (st : SimState) : SimState :=
  classifyPhase E sIdx
    (collisionPhase E
      (integratePhase E sIdx dtStep
        (buoyancyPhase
          (heatingPhase E sIdx dtStep
            (gravityPhase
              (computeForces E sIdx st))))))

/-- Maximum particle speed (lines 373-378), via the hypot oracle. -/
def maxSpeed (sq : ℚ → ℚ) (ps : List Particle) : ℚ :=
  ps.foldl (fun m p => max m (hypotE sq p.vel.1 p.vel.2)) 0

/-- Substep count (lines 371-385): clamped to `[2, 12]` when gravity is
on, otherwise 1. -/
def substepsOf (E : Env) (dt : ℚ) (st : SimState) : ℕ :=
  if st.gravityOn then
    let ms := maxSpeed E.sq st.particles
    let minR := 0.5 * orQ (st.particles.getD 0 default).radius 3
    let safeDisp := max 2 minR
    (min 12 (max 2 ⌈ms * dt / safeDisp⌉)).toNat
  else 1

/-- `step(dt)` (lines 370-691): run every substep with the shared
substep duration `dt / substeps`. -/
def step (E : Env) (dt : ℚ) (st : SimState) : SimState :=
  let n := substepsOf E dt st
  let dtStep := dt / (n : ℚ)
  (List.range n).foldl (fun s i => substepF E i dtStep s) st

/-- Iterated frames: step `n` times, the `k`-th call using `envs k` and
duration `dts k`. -/
def runSteps (envs : ℕ → Env) (dts : ℕ → ℚ) (st : SimState) : ℕ → SimState
  | 0 => st
  | n + 1 => step (envs n) (dts n) (runSteps envs dts st n)

/-- The observable inputs the rest of the engine writes into a particle
between two classifier passes (velocity, height, thermal load, local
density) together with the classifier's clock reading. -/
structure CObs where
  now : ℚ
  vel : ℚ × ℚ
  posY : ℚ
  thermalEnergy : ℚ
  localNeighbors : ℕ

/-- One classifier pass on a particle whose driven fields have been
overwritten by an arbitrary environment (the claim's "any input
trajectory"). -/
def classifyStep (kT viscosity height : ℚ) (p : Particle) (o : CObs) : Particle :=
  classifyCore kT viscosity height o.now
    { p with
      vel := o.vel
      pos := (p.pos.1, o.posY)
      thermalEnergy := o.thermalEnergy
      localNeighbors := o.localNeighbors }

/-- The times at which the phase flips along a driven trajectory. -/
def flipTimes (kT viscosity height : ℚ) (p : Particle) : List CObs → List ℚ
  | [] => []
  | o :: os =>
    let p1 := classifyStep kT viscosity height p o
    if p1.state = p.state then flipTimes kT viscosity height p1 os
    else o.now :: flipTimes kT viscosity height p1 os

/-! ### Helper lemmas for the force model -/

lemma vLen_neg (sq : ℚ → ℚ) (x y : ℚ) : vLen sq (-x, -y) = vLen sq (x, y) := by
  have h : -x * -x + -y * -y = x * x + y * y := by ring
  simp only [vLen, hypotE, h]

lemma vNorm_neg (sq : ℚ → ℚ) (x y : ℚ) :
    vNorm sq (-x, -y) = vNeg (vNorm sq (x, y)) := by
  simp only [vNorm, vLen_neg, vNeg]
  split_ifs with h
  · simp [neg_div]
  · simp

lemma vMul_neg_left (u : ℚ × ℚ) (k : ℚ) : vMul (vNeg u) k = vNeg (vMul u k) := by
  simp only [vMul, vNeg, Prod.mk.injEq]
  constructor <;> ring

lemma ljForce_neg (sq : ℚ → ℚ) (P : SimParams) (x y : ℚ) :
    ljForce sq P (-x, -y) = vNeg (ljForce sq P (x, y)) := by
  simp only [ljForce, vLen_neg, vNorm_neg, vMul_neg_left]

lemma hbForce_neg (sq : ℚ → ℚ) (P : SimParams) (x y : ℚ) :
    hbForce sq P (-x, -y) = vNeg (hbForce sq P (x, y)) := by
  simp only [hbForce, vLen_neg, vNorm_neg, vMul_neg_left]
  split_ifs <;> simp [vNeg]

lemma dipoleForce_neg (sq : ℚ → ℚ) (P : SimParams) (x y : ℚ) :
    dipoleForce sq P (-x, -y) = vNeg (dipoleForce sq P (x, y)) := by
  simp only [dipoleForce, vLen_neg, vNorm_neg, vMul_neg_left]
  split_ifs <;> simp [vNeg]

lemma vMul_vNeg (u : ℚ × ℚ) (k : ℚ) : vMul (vNeg u) k = vNeg (vMul u k) := vMul_neg_left u k

lemma vAdd_neg (u v : ℚ × ℚ) : vAdd (vNeg u) (vNeg v) = vNeg (vAdd u v) := by
  simp only [vAdd, vNeg, Prod.mk.injEq]
  constructor <;> ring

/-- The Lennard-Jones magnitude as worded by the spec for claim C1:
`24·ε·(2·(σ/r)^12 − (σ/r)^6)·(1/r)` with `ε` derived from the viscosity
coefficient, clamped to `[-60, 60]` (written from the spec's words, to
be compared with the source's `ljMag`). -/
def ljMagClaimed (P : SimParams) (r : ℚ) : ℚ :=
  clamp (24 * (0.3 + 0.5 * P.viscosity) *
    (2 * (P.sigma / r) ^ 12 - (P.sigma / r) ^ 6) * (1 / r)) (-60) 60

lemma clamp60_of_pos {v : ℚ} (h : 0 < v) : 0 < clamp v (-60) 60 := by
  have h1 : 0 < min 60 v := lt_min (by norm_num) h
  exact lt_of_lt_of_le h1 (le_max_right _ _)

lemma clamp60_of_neg {v : ℚ} (h : v < 0) : clamp v (-60) 60 < 0 :=
  max_lt (by norm_num) (lt_of_le_of_lt (min_le_right _ _) h)

lemma ljMag_eq_claimed (P : SimParams) (r : ℚ) (h : ¬ 2.5 * P.sigma < r) :
    ljMag P r = ljMagClaimed P r := by
  simp only [ljMag, ljMagClaimed, if_neg h]
  congr 1
  ring

lemma ljMag_cutoff (P : SimParams) (r : ℚ) (h : 2.5 * P.sigma < r) :
    ljMag P r = 0 := by
  simp only [ljMag, if_pos h, clamp]
  norm_num

lemma ljMag_pos (P : SimParams) (r : ℚ) (hv : 0 ≤ P.viscosity)
    (hr : 0 < r) (hrs : r ≤ P.sigma) (hcut : ¬ 2.5 * P.sigma < r) :
    0 < ljMag P r := by
  simp only [ljMag, if_neg hcut]
  apply clamp60_of_pos
  set s := P.sigma / r with hsdef
  have hsr : 1 ≤ s := (one_le_div hr).mpr hrs
  have hinv : 0 < 1 / r := by positivity
  have h2 : 1 ≤ s * s := by nlinarith
  have h4 : 1 ≤ s * s * (s * s) := by nlinarith
  have h6 : 1 ≤ s * s * (s * s) * (s * s) := by nlinarith
  set a := s * s * (s * s) * (s * s) with hadef
  have hX : 1 ≤ 2 * (a * a) - a := by nlinarith
  have hε : 0 < 0.3 + 0.5 * P.viscosity := by linarith
  have h24 : (0 : ℚ) < 24 * (0.3 + 0.5 * P.viscosity) := by linarith
  exact mul_pos (mul_pos h24 (by linarith)) hinv

lemma ljMag_neg (P : SimParams) (r : ℚ) (hv : 0 ≤ P.viscosity) (hσ : 0 < P.sigma)
    (hr : 0 < r) (hwell : 2 * P.sigma ^ 6 < r ^ 6) (hcut : ¬ 2.5 * P.sigma < r) :
    ljMag P r < 0 := by
  simp only [ljMag, if_neg hcut]
  apply clamp60_of_neg
  set s := P.sigma / r with hsdef
  have hr6 : (0 : ℚ) < r ^ 6 := by positivity
  have hspos : 0 < s := by rw [hsdef]; positivity
  set a := s * s * (s * s) * (s * s) with hadef
  have hapos : 0 < a := by rw [hadef]; positivity
  have haval : a = P.sigma ^ 6 / r ^ 6 := by rw [hadef, hsdef]; ring
  have hahalf : a < 1 / 2 := by
    rw [haval, div_lt_iff hr6]
    linarith
  have hX : 2 * (a * a) - a < 0 := by nlinarith
  have hε : 0 < 0.3 + 0.5 * P.viscosity := by linarith
  have hinv : 0 < 1 / r := by positivity
  have h24 : (0 : ℚ) < 24 * (0.3 + 0.5 * P.viscosity) := by linarith
  exact mul_neg_of_neg_of_pos (mul_neg_of_pos_of_neg h24 hX) hinv

/-- C1: for every displacement whose length exceeds `2.5σ` the
Lennard-Jones term is exactly `(0, 0)`; at or below the cutoff the
squared Euclidean norm of the force equals the square of the clamped
spec magnitude `24·ε·(2·(σ/r)^12 − (σ/r)^6)·(1/r)` (`ε` derived from
viscosity, clamp `[-60, 60]`); the force points along the displacement:
against it (repulsive) for `r ≤ σ`, toward it (attractive) in the
potential well `2σ^6 < r^6`, `r ≤ 2.5σ`. -/
theorem c1_lj_cutoff_clamp_direction (sq : ℚ → ℚ) (P : SimParams) (x y : ℚ)
    (hsq : SqrtAt sq (x * x + y * y)) (hσ : 0 < P.sigma) (hv : 0 ≤ P.viscosity) :
    (2.5 * P.sigma < sq (x * x + y * y) → ljForce sq P (x, y) = (0, 0)) ∧
    (sq (x * x + y * y) + 1e-9 ≤ 2.5 * P.sigma → 1e-12 < sq (x * x + y * y) →
      (ljForce sq P (x, y)).1 ^ 2 + (ljForce sq P (x, y)).2 ^ 2 =
        ljMagClaimed P (sq (x * x + y * y) + 1e-9) ^ 2) ∧
    (sq (x * x + y * y) + 1e-9 ≤ P.sigma → 1e-12 < sq (x * x + y * y) →
      (ljForce sq P (x, y)).1 * x + (ljForce sq P (x, y)).2 * y < 0) ∧
    (2 * P.sigma ^ 6 < (sq (x * x + y * y) + 1e-9) ^ 6 →
      sq (x * x + y * y) + 1e-9 ≤ 2.5 * P.sigma → 1e-12 < sq (x * x + y * y) →
      0 < (ljForce sq P (x, y)).1 * x + (ljForce sq P (x, y)).2 * y) := by
  obtain ⟨hL0, hL2⟩ := hsq
  set L := sq (x * x + y * y) with hLdef
  have hlen : vLen sq (x, y) = L := rfl
  refine ⟨?_, ?_, ?_, ?_⟩
  · intro hfar
    have hcut : 2.5 * P.sigma < L + 1e-9 := by linarith
    simp [ljForce, hlen, ljMag_cutoff P _ hcut, vMul]
  · intro hcut hpos
    have hne : ¬ 2.5 * P.sigma < L + 1e-9 := by linarith
    have hm : ljMag P (L + 1e-9) = ljMagClaimed P (L + 1e-9) := ljMag_eq_claimed _ _ hne
    have hLne : L ≠ 0 := by intro h; rw [h] at hpos; norm_num at hpos
    simp only [ljForce, hlen, vNorm, vMul, if_pos hpos, hm]
    field_simp
    nlinarith [hL2]
  · intro hsmall hpos
    have hr : (0 : ℚ) < L + 1e-9 := by linarith
    have hcut : ¬ 2.5 * P.sigma < L + 1e-9 := by nlinarith
    have hm := ljMag_pos P (L + 1e-9) hv hr hsmall hcut
    have hLpos : (0 : ℚ) < L := by linarith
    simp only [ljForce, hlen, vNorm, vMul, if_pos hpos]
    have hdot : x / L * -ljMag P (L + 1e-9) * x + y / L * -ljMag P (L + 1e-9) * y =
        -(ljMag P (L + 1e-9)) * L := by
      have h1 : x / L * -ljMag P (L + 1e-9) * x + y / L * -ljMag P (L + 1e-9) * y =
          -ljMag P (L + 1e-9) * (x * x + y * y) / L := by ring
      rw [h1, ← hL2, mul_div_assoc, mul_self_div_self]
    rw [hdot]
    nlinarith [hm, hLpos]
  · intro hwell hcut hpos
    have hr : (0 : ℚ) < L + 1e-9 := by linarith
    have hne : ¬ 2.5 * P.sigma < L + 1e-9 := by linarith
    have hm := ljMag_neg P (L + 1e-9) hv hσ hr hwell hne
    have hLpos : (0 : ℚ) < L := by linarith
    simp only [ljForce, hlen, vNorm, vMul, if_pos hpos]
    have hdot : x / L * -ljMag P (L + 1e-9) * x + y / L * -ljMag P (L + 1e-9) * y =
        -(ljMag P (L + 1e-9)) * L := by
      have h1 : x / L * -ljMag P (L + 1e-9) * x + y / L * -ljMag P (L + 1e-9) * y =
          -ljMag P (L + 1e-9) * (x * x + y * y) / L := by ring
      rw [h1, ← hL2, mul_div_assoc, mul_self_div_self]
    rw [hdot]
    nlinarith [hm, hLpos]

/-- The square-root oracle used by the concrete witnesses: correct at
the concrete squared lengths they use. -/
def sqW : ℚ → ℚ := fun q => if q = 225 then 15 else if q = 100 then 10 else 0

/-- Honey-like demo parameters (σ = 10, viscosity = 2). -/
def PW : SimParams :=
  { epsilon := 0.7, sigma := 10, viscosity := 2, hbStrength := 1.8,
    dipole := 1.6, kT := 1, cohLJ := 1, cohHB := 1, cohDP := 1 }

/-- Witness for C1 at the displacement `(15, 0)` with σ = 10. -/
theorem c1_witness :
    (2.5 * PW.sigma < sqW (15 * 15 + 0 * 0) → ljForce sqW PW (15, 0) = (0, 0)) ∧
    (sqW (15 * 15 + 0 * 0) + 1e-9 ≤ 2.5 * PW.sigma → 1e-12 < sqW (15 * 15 + 0 * 0) →
      (ljForce sqW PW (15, 0)).1 ^ 2 + (ljForce sqW PW (15, 0)).2 ^ 2 =
        ljMagClaimed PW (sqW (15 * 15 + 0 * 0) + 1e-9) ^ 2) ∧
    (sqW (15 * 15 + 0 * 0) + 1e-9 ≤ PW.sigma → 1e-12 < sqW (15 * 15 + 0 * 0) →
      (ljForce sqW PW (15, 0)).1 * 15 + (ljForce sqW PW (15, 0)).2 * 0 < 0) ∧
    (2 * PW.sigma ^ 6 < (sqW (15 * 15 + 0 * 0) + 1e-9) ^ 6 →
      sqW (15 * 15 + 0 * 0) + 1e-9 ≤ 2.5 * PW.sigma → 1e-12 < sqW (15 * 15 + 0 * 0) →
      0 < (ljForce sqW PW (15, 0)).1 * 15 + (ljForce sqW PW (15, 0)).2 * 0) :=
  c1_lj_cutoff_clamp_direction sqW PW 15 0
    ⟨by norm_num [sqW], by norm_num [sqW]⟩ (by norm_num [PW]) (by norm_num [PW])

/-- C2 (code evaluated at the failing input): with a positive
hydrogen-bond coefficient and a positive dipole coefficient, at a
separation inside both cutoffs with B displaced in the `+x` direction
from A, both directional terms have a strictly negative `x`-component —
they push A *away* from B, not toward it. -/
theorem c2_directional_terms_point_away_from_B :
    0 ≤ sqW (10 * 10 + 0 * 0) ∧ sqW (10 * 10 + 0 * 0) * sqW (10 * 10 + 0 * 0) = 10 * 10 + 0 * 0 ∧
    0 < PW.hbStrength ∧ 0 < PW.dipole ∧
    vLen sqW (10, 0) + 1e-9 < 1.8 * PW.sigma ∧
    vLen sqW (10, 0) + 1e-9 < 2.2 * PW.sigma ∧
    (hbForce sqW PW (10, 0)).1 < 0 ∧ (hbForce sqW PW (10, 0)).2 = 0 ∧
    (dipoleForce sqW PW (10, 0)).1 < 0 ∧ (dipoleForce sqW PW (10, 0)).2 = 0 := by
  norm_num [hbForce, dipoleForce, vLen, vNorm, hypotE, vMul, sqW, PW]

/-- C3: Newton's third law for the force model — each of the three
terms, and the phase-weighted per-pair sum of `computeForces`, is odd
in the displacement and symmetric under swapping the two particles'
phases: the force on A from B is the exact negation of the force on B
from A. -/
theorem c3_newton_third_law (sq : ℚ → ℚ) (P : SimParams) (sa sb : Phase) (x y : ℚ) :
    ljForce sq P (-x, -y) = vNeg (ljForce sq P (x, y)) ∧
    hbForce sq P (-x, -y) = vNeg (hbForce sq P (x, y)) ∧
    dipoleForce sq P (-x, -y) = vNeg (dipoleForce sq P (x, y)) ∧
    pairContrib sq P sb sa (-x, -y) = vNeg (pairContrib sq P sa sb (x, y)) := by
  refine ⟨ljForce_neg sq P x y, hbForce_neg sq P x y, dipoleForce_neg sq P x y, ?_⟩
  cases sa <;> cases sb <;>
    simp [pairContrib, ljForce_neg, hbForce_neg, dipoleForce_neg, vMul_vNeg, vAdd_neg]

lemma vMul_one (u : ℚ × ℚ) : vMul u 1 = u := by
  simp [vMul]

lemma vMul_vMul (u : ℚ × ℚ) (c d : ℚ) : vMul (vMul u c) d = vMul u (c * d) := by
  simp only [vMul, Prod.mk.injEq]
  constructor <;> ring

lemma vAdd_vMul (u v : ℚ × ℚ) (k : ℚ) :
    vMul (vAdd u v) k = vAdd (vMul u k) (vMul v k) := by
  simp only [vMul, vAdd, Prod.mk.injEq]
  constructor <;> ring

/-- C10: in `computeForces`, a liquid–liquid pair receives an extra
factor 1.3 on the Lennard-Jones and hydrogen-bond terms on top of the
scenario coefficients, while the dipole term gets no boost; a pair with
a gas member has all three terms scaled by 0.2 (and no boost). -/
theorem c10_liquid_boost_gas_scale (sq : ℚ → ℚ) (P : SimParams) (sa sb : Phase) (x y : ℚ) :
    (sa = Phase.liquid → sb = Phase.liquid →
      pairContrib sq P sa sb (x, y) =
        vAdd (vAdd (vMul (ljForce sq P (x, y)) (orQ P.cohLJ 1 * 1.3))
                   (vMul (hbForce sq P (x, y)) (orQ P.cohHB 1 * 1.3)))
             (vMul (dipoleForce sq P (x, y)) (orQ P.cohDP 1))) ∧
    (sa = Phase.gas ∨ sb = Phase.gas →
      pairContrib sq P sa sb (x, y) =
        vMul (vAdd (vAdd (vMul (ljForce sq P (x, y)) (orQ P.cohLJ 1))
                         (vMul (hbForce sq P (x, y)) (orQ P.cohHB 1)))
                   (vMul (dipoleForce sq P (x, y)) (orQ P.cohDP 1))) 0.2) := by
  constructor
  · intro ha hb
    subst ha hb
    simp [pairContrib, vMul_one, vMul_vMul]
    norm_num
  · intro hgas
    have hnl : ¬ (sa = Phase.liquid ∧ sb = Phase.liquid) := by
      rcases hgas with h | h <;> subst h <;> simp
    simp only [pairContrib, if_pos hgas, if_neg hnl, vAdd_vMul, vMul_vMul, mul_one]
    norm_num

/-- Witness for C10: both cases instantiated at concrete phases. -/
theorem c10_witness :
    (pairContrib sqW PW Phase.liquid Phase.liquid (15, 0) =
        vAdd (vAdd (vMul (ljForce sqW PW (15, 0)) (orQ PW.cohLJ 1 * 1.3))
                   (vMul (hbForce sqW PW (15, 0)) (orQ PW.cohHB 1 * 1.3)))
             (vMul (dipoleForce sqW PW (15, 0)) (orQ PW.cohDP 1))) ∧
    (pairContrib sqW PW Phase.gas Phase.liquid (15, 0) =
        vMul (vAdd (vAdd (vMul (ljForce sqW PW (15, 0)) (orQ PW.cohLJ 1))
                         (vMul (hbForce sqW PW (15, 0)) (orQ PW.cohHB 1)))
                   (vMul (dipoleForce sqW PW (15, 0)) (orQ PW.cohDP 1))) 0.2) :=
  ⟨(c10_liquid_boost_gas_scale sqW PW Phase.liquid Phase.liquid 15 0).1 rfl rfl,
   (c10_liquid_boost_gas_scale sqW PW Phase.gas Phase.liquid 15 0).2 (Or.inl rfl)⟩

/-! ### Neighbor-grid lemmas (claim C4) -/

lemma mem_intRange {a b z : ℤ} : z ∈ intRange a b ↔ a ≤ z ∧ z ≤ b := by
  unfold intRange
  rw [List.mem_map]
  constructor
  · rintro ⟨k, hk, hzk⟩
    rw [List.mem_range] at hk
    omega
  · rintro ⟨h1, h2⟩
    refine ⟨(z - a).toNat, ?_, ?_⟩
    · rw [List.mem_range]
      omega
    · omega

lemma mem_concatMap {f : α → List β} {l : List α} {b : β} :
    b ∈ concatMap f l ↔ ∃ a ∈ l, b ∈ f a := by
  induction l with
  | nil => simp [concatMap]
  | cons x xs ih => simp [concatMap, ih]

lemma mem_bucketG {w h cs : ℚ} {ps : List Particle} {idx i : ℕ} :
    i ∈ bucketG w h cs ps idx ↔ i < ps.length ∧
      cellIndexG w h cs (ps.getD i default).pos.1 (ps.getD i default).pos.2 = idx := by
  simp [bucketG, List.mem_filter, List.mem_range]

lemma gCell_pos (cs : ℚ) : 0 < gCell cs :=
  lt_of_lt_of_le (by norm_num) (le_max_left 8 cs)

lemma forNeighborsG_no_false_neg (w h cs : ℚ) (ps : List Particle)
    (x y rad : ℚ) (i : ℕ) (hi : i < ps.length)
    (hx0 : 0 ≤ (ps.getD i default).pos.1)
    (hx1 : (ps.getD i default).pos.1 < (gCols w cs : ℚ) * gCell cs)
    (hy0 : 0 ≤ (ps.getD i default).pos.2)
    (hy1 : (ps.getD i default).pos.2 < (gRows h cs : ℚ) * gCell cs)
    (hrad : 0 ≤ rad)
    (hd : ((ps.getD i default).pos.1 - x) ^ 2 + ((ps.getD i default).pos.2 - y) ^ 2 ≤ rad ^ 2) :
    i ∈ forNeighborsG w h cs ps x y rad := by
  set px := (ps.getD i default).pos.1 with hpx
  set py := (ps.getD i default).pos.2 with hpy
  have hcs : (0 : ℚ) < gCell cs := gCell_pos cs
  have hdx1 : x - rad ≤ px := by nlinarith [sq_nonneg (py - y), sq_nonneg (px - x + rad)]
  have hdx2 : px ≤ x + rad := by nlinarith [sq_nonneg (py - y), sq_nonneg (px - x - rad)]
  have hdy1 : y - rad ≤ py := by nlinarith [sq_nonneg (px - x), sq_nonneg (py - y + rad)]
  have hdy2 : py ≤ y + rad := by nlinarith [sq_nonneg (px - x), sq_nonneg (py - y - rad)]
  have h0cx : 0 ≤ ⌊px / gCell cs⌋ := Int.floor_nonneg.mpr (by positivity)
  have h0cy : 0 ≤ ⌊py / gCell cs⌋ := Int.floor_nonneg.mpr (by positivity)
  have hcxlt : ⌊px / gCell cs⌋ < (gCols w cs : ℤ) := by
    rw [Int.floor_lt]
    rw [div_lt_iff hcs]
    push_cast
    exact hx1
  have hcylt : ⌊py / gCell cs⌋ < (gRows h cs : ℤ) := by
    rw [Int.floor_lt]
    rw [div_lt_iff hcs]
    push_cast
    exact hy1
  have hminx : ⌊(x - rad) / gCell cs⌋ ≤ ⌊px / gCell cs⌋ :=
    Int.floor_le_floor ((div_le_div_right hcs).mpr hdx1)
  have hmaxx : ⌊px / gCell cs⌋ ≤ ⌊(x + rad) / gCell cs⌋ :=
    Int.floor_le_floor ((div_le_div_right hcs).mpr hdx2)
  have hminy : ⌊(y - rad) / gCell cs⌋ ≤ ⌊py / gCell cs⌋ :=
    Int.floor_le_floor ((div_le_div_right hcs).mpr hdy1)
  have hmaxy : ⌊py / gCell cs⌋ ≤ ⌊(y + rad) / gCell cs⌋ :=
    Int.floor_le_floor ((div_le_div_right hcs).mpr hdy2)
  simp only [forNeighborsG]
  rw [mem_concatMap]
  refine ⟨⌊py / gCell cs⌋, mem_intRange.mpr ⟨hminy, hmaxy⟩, ?_⟩
  rw [mem_concatMap]
  refine ⟨⌊px / gCell cs⌋, mem_intRange.mpr ⟨hminx, hmaxx⟩, ?_⟩
  rw [if_neg (by push_neg; omega)]
  rw [mem_bucketG]
  refine ⟨hi, ?_⟩
  simp only [cellIndexG, ← hpx, ← hpy]
  rw [max_eq_right h0cx, max_eq_right h0cy,
    min_eq_right (by omega : ⌊px / gCell cs⌋ ≤ (gCols w cs : ℤ) - 1),
    min_eq_right (by omega : ⌊py / gCell cs⌋ ≤ (gRows h cs : ℤ) - 1)]

/-- C4 (amended): `forNeighbors` visits every inserted particle within
Euclidean distance `radius` of the query point, provided the particle's
position lies inside the grid's covered region
`[0, cols·cellSize) × [0, rows·cellSize)`.  (Outside that region the
insert clamp and the query's out-of-range skip disagree — see the
counterexample.) -/
theorem c4_no_false_negatives_in_covered_region (w h cs : ℚ) (ps : List Particle)
    (x y rad : ℚ) (i : ℕ) (hi : i < ps.length)
    (hx0 : 0 ≤ (ps.getD i default).pos.1)
    (hx1 : (ps.getD i default).pos.1 < (gCols w cs : ℚ) * gCell cs)
    (hy0 : 0 ≤ (ps.getD i default).pos.2)
    (hy1 : (ps.getD i default).pos.2 < (gRows h cs : ℚ) * gCell cs)
    (hrad : 0 ≤ rad)
    (hd : ((ps.getD i default).pos.1 - x) ^ 2 + ((ps.getD i default).pos.2 - y) ^ 2 ≤ rad ^ 2) :
    i ∈ forNeighborsG w h cs ps x y rad :=
  forNeighborsG_no_false_neg w h cs ps x y rad i hi hx0 hx1 hy0 hy1 hrad hd

/-- The concrete particle of the C4 counterexample: inside the nominal
100×100 domain but beyond the grid's covered region (cols·cellSize = 96). -/
def pC4 : Particle :=
  { pos := (98, 10), vel := (0, 0), acc := (0, 0), mass := 1, radius := 3,
    state := .liquid, gasUntil := 0, localNeighbors := 0,
    thermalEnergy := 0, lastStateChange := 0 }

/-- C4 counterexample: a 100×100 grid with cell size 24 covers only
`[0,96) × [0,96)` (4×4 cells). A particle at `(98, 10)` is clamped into
the edge cell on insert, but a query centred exactly on it with radius 1
computes only out-of-range cell columns and skips them, so the particle
at distance 0 is never visited: a false negative. -/
theorem c4_counterexample :
    forNeighborsG 100 100 24 [pC4] 98 10 1 = [] ∧
    (pC4.pos.1 - 98) ^ 2 + (pC4.pos.2 - 10) ^ 2 ≤ 1 ^ 2 ∧
    0 ≤ pC4.pos.1 ∧ pC4.pos.1 ≤ 100 ∧ 0 ≤ pC4.pos.2 ∧ pC4.pos.2 ≤ 100 := by
  have hc : gCell 24 = 24 := by norm_num [gCell]
  have hcols : gCols 100 24 = 4 := by
    norm_num [gCols, hc]
    omega
  have hrows : gRows 100 24 = 4 := by
    norm_num [gRows, hc]
    omega
  have hminx : ⌊((98 : ℚ) - 1) / gCell 24⌋ = 4 := by
    rw [hc, Int.floor_eq_iff] <;> norm_num
  have hmaxx : ⌊((98 : ℚ) + 1) / gCell 24⌋ = 4 := by
    rw [hc, Int.floor_eq_iff] <;> norm_num
  have hminy : ⌊((10 : ℚ) - 1) / gCell 24⌋ = 0 := by
    rw [hc, Int.floor_eq_iff] <;> norm_num
  have hmaxy : ⌊((10 : ℚ) + 1) / gCell 24⌋ = 0 := by
    rw [hc, Int.floor_eq_iff] <;> norm_num
  refine ⟨?_, by norm_num [pC4], by norm_num [pC4], by norm_num [pC4],
    by norm_num [pC4], by norm_num [pC4]⟩
  simp only [forNeighborsG, hminx, hmaxx, hminy, hmaxy, hcols, hrows]
  norm_num [intRange, concatMap]

/-- The particle of the C4 witness, well inside the covered region. -/
def pC4w : Particle :=
  { pos := (50, 50), vel := (0, 0), acc := (0, 0), mass := 1, radius := 3,
    state := .liquid, gasUntil := 0, localNeighbors := 0,
    thermalEnergy := 0, lastStateChange := 0 }

/-- Witness for the amended C4 theorem: one particle at `(50, 50)` in a
900×420 grid; a query at `(52, 50)` with radius 5 does visit it. -/
theorem c4_witness : 0 ∈ forNeighborsG 900 420 24 [pC4w] 52 50 5 := by
  have hc : gCell 24 = 24 := by norm_num [gCell]
  have hcols : gCols 900 24 = 37 := by
    norm_num [gCols, hc]
    omega
  have hrows : gRows 420 24 = 17 := by
    norm_num [gRows, hc]
    omega
  exact c4_no_false_negatives_in_covered_region 900 420 24 [pC4w] 52 50 5 0
    (by norm_num) (by norm_num [pC4w]) (by rw [hcols, hc]; norm_num [pC4w])
    (by norm_num [pC4w]) (by rw [hrows, hc]; norm_num [pC4w]) (by norm_num)
    (by norm_num [pC4w])

/-! ### Classifier dwell-time lemmas (claim C5) -/

lemma classify_flip_now (kT v h : ℚ) (p : Particle) (o : CObs)
    (hf : (classifyStep kT v h p o).state ≠ p.state) :
    (classifyStep kT v h p o).lastStateChange = o.now := by
  simp only [classifyStep, classifyCore] at hf ⊢
  split_ifs at hf ⊢ <;> simp_all

lemma classify_noflip_lsc (kT v h : ℚ) (p : Particle) (o : CObs)
    (hs : (classifyStep kT v h p o).state = p.state) :
    (classifyStep kT v h p o).lastStateChange = p.lastStateChange := by
  simp only [classifyStep, classifyCore] at hs ⊢
  split_ifs at hs ⊢ <;> simp_all

lemma classify_flip_dwell (kT v h : ℚ) (p : Particle) (o : CObs)
    (hf : (classifyStep kT v h p o).state ≠ p.state) :
    p.lastStateChange + 150 ≤ o.now := by
  simp only [classifyStep, classifyCore] at hf
  norm_num at hf
  split_ifs at hf <;> first
    | (simp_all; done)
    | linarith

lemma classify_flip_dwell300 (kT v h : ℚ) (p : Particle) (o : CObs)
    (hf : (classifyStep kT v h p o).state ≠ p.state)
    (hc : p.state = Phase.gas ∨ o.thermalEnergy ≤ 0.7) :
    p.lastStateChange + 300 ≤ o.now := by
  simp only [classifyStep, classifyCore] at hf
  norm_num at hf
  split_ifs at hf <;> first
    | (simp_all; done)
    | linarith
    | (rcases hc with hc | hc <;> [(simp_all; done); linarith])

/-- C5 (amended): along any driven trajectory, consecutive phase
transitions (and the first transition, measured from the initial
`lastStateChange`) are separated by at least 150 ms; the full 300 ms
dwell minimum holds for every gas→liquid transition and for every
liquid→gas transition of a particle whose thermal load is ≤ 0.7 —
but a liquid particle with `thermalEnergy > 0.7` may flip to gas only
150 ms after its last transition, so the guaranteed dwell floor for
arbitrary trajectories is 150 ms, not 300 ms. -/
theorem c5_dwell_floor (kT v h : ℚ) (p0 : Particle) (obs : List CObs) :
    List.Chain' (fun t1 t2 => t1 + 150 ≤ t2)
      (p0.lastStateChange :: flipTimes kT v h p0 obs) ∧
    (∀ p o, (classifyStep kT v h p o).state ≠ p.state →
      p.lastStateChange + 150 ≤ o.now ∧
      ((p.state = Phase.gas ∨ o.thermalEnergy ≤ 0.7) →
        p.lastStateChange + 300 ≤ o.now)) := by
  constructor
  · induction obs generalizing p0 with
    | nil => simp [flipTimes]
    | cons o os ih =>
      rw [flipTimes]
      by_cases hs : (classifyStep kT v h p0 o).state = p0.state
      · rw [if_pos hs, ← classify_noflip_lsc kT v h p0 o hs]
        exact ih (classifyStep kT v h p0 o)
      · rw [if_neg hs, List.chain'_cons]
        refine ⟨classify_flip_dwell kT v h p0 o hs, ?_⟩
        rw [← classify_flip_now kT v h p0 o hs]
        exact ih (classifyStep kT v h p0 o)
  · intro p o hf
    exact ⟨classify_flip_dwell kT v h p o hf, classify_flip_dwell300 kT v h p o hf⟩

/-- Initial particle of the C5 counterexample trace: in the gas phase,
last transition at t = 0. -/
def p5gas : Particle :=
  { pos := (100, 300), vel := (0, 0), acc := (0, 0), mass := 1, radius := 3,
    state := .gas, gasUntil := 0, localNeighbors := 0,
    thermalEnergy := 0, lastStateChange := 0 }

/-- First driven observation: cold and slow at t = 1000 ms (condenses). -/
def o5a : CObs :=
  { now := 1000, vel := (0, 0), posY := 300, thermalEnergy := 0.1, localNeighbors := 0 }

/-- Second driven observation: very hot (`thermalEnergy = 0.8 > 0.7`)
and fast at t = 1150 ms (evaporates through the halved dwell gate). -/
def o5b : CObs :=
  { now := 1150, vel := (11, 0), posY := 300, thermalEnergy := 0.8, localNeighbors := 0 }

/-- The C5 trace particle after the first (condensing) observation. -/
def p5mid : Particle :=
  { pos := (100, 300), vel := (0, 0), acc := (0, 0), mass := 1, radius := 3,
    state := .liquid, gasUntil := 0, localNeighbors := 0,
    thermalEnergy := 1 / 20, lastStateChange := 1000 }

/-- The C5 trace particle after the second (evaporating) observation. -/
def p5fin : Particle :=
  { pos := (100, 300), vel := (11, -30), acc := (0, 0), mass := 1, radius := 3,
    state := .gas, gasUntil := 2650, localNeighbors := 0,
    thermalEnergy := 8 / 10, lastStateChange := 1150 }

lemma c5_step1 : classifyStep 1 2 420 p5gas o5a = p5mid := by
  simp only [classifyStep, classifyCore, p5gas, o5a, p5mid]
  norm_num
  all_goals decide

lemma c5_step2 : classifyStep 1 2 420 p5mid o5b = p5fin := by
  simp only [classifyStep, classifyCore, p5mid, o5b, p5fin]
  norm_num
  all_goals decide

/-- C5 counterexample: the particle condenses at t = 1000 and, being
hot (`thermalEnergy = 0.8 > 0.7`), evaporates again at t = 1150 — two
consecutive transitions only 150 ms apart, strictly less than the
configured 300 ms dwell minimum. -/
theorem c5_counterexample :
    flipTimes 1 2 420 p5gas [o5a, o5b] = [1000, 1150] ∧ (1150 : ℚ) - 1000 < 300 := by
  constructor
  · rw [flipTimes, c5_step1]
    rw [if_neg (by simp [p5mid, p5gas])]
    rw [flipTimes, c5_step2]
    rw [if_neg (by simp only [p5fin, p5mid]; exact fun hh => Phase.noConfusion hh)]
    rw [flipTimes]
    norm_num [o5a, o5b]
  · norm_num

/-- Witness for the amended C5 theorem on the concrete trace. -/
theorem c5_witness :
    List.Chain' (fun t1 t2 => t1 + 150 ≤ t2)
      (p5gas.lastStateChange :: flipTimes 1 2 420 p5gas [o5a, o5b]) :=
  (c5_dwell_floor 1 2 420 p5gas [o5a, o5b]).1

/-! ### Collision-resolver lemmas (claim C6) -/

lemma forNeighborsG_lt_length {w h cs : ℚ} {ps : List Particle} {x y r : ℚ} {j : ℕ}
    (hj : j ∈ forNeighborsG w h cs ps x y r) : j < ps.length := by
  simp only [forNeighborsG] at hj
  rw [mem_concatMap] at hj
  obtain ⟨cy, _, hj⟩ := hj
  rw [mem_concatMap] at hj
  obtain ⟨cx, _, hj⟩ := hj
  split_ifs at hj
  · simp at hj
  · exact (mem_bucketG.mp hj).1

lemma pairBody_self (sq : ℚ → ℚ) (h : ℚ) (i : ℕ) (axy : ℚ × ℚ)
    (S : List Particle × List (ℕ × ℕ)) : pairBody sq h i axy S i = S := by
  simp [pairBody]

lemma pairBody_mem (sq : ℚ → ℚ) (h : ℚ) (i j : ℕ) (axy : ℚ × ℚ)
    (S : List Particle × List (ℕ × ℕ)) (hij : j ≠ i)
    (hkey : (min i j, max i j) ∈ S.2) : pairBody sq h i axy S j = S := by
  simp [pairBody, hij, hkey]

lemma pairBody_far (sq : ℚ → ℚ) (h : ℚ) (i j : ℕ) (axy : ℚ × ℚ)
    (ps : List Particle) (procs : List (ℕ × ℕ)) (hij : j ≠ i)
    (hkey : (min i j, max i j) ∉ procs)
    (hfar : ¬ distOf sq ((ps.getD j default).pos.1 - axy.1) ((ps.getD j default).pos.2 - axy.2)
        < minDistOf (ps.getD i default) (ps.getD j default)) :
    pairBody sq h i axy (ps, procs) j = (ps, (min i j, max i j) :: procs) := by
  simp only [pairBody, if_neg hij]
  rw [if_neg hkey, if_neg hfar]

lemma pairBody_near (sq : ℚ → ℚ) (h : ℚ) (i j : ℕ) (axy : ℚ × ℚ)
    (ps : List Particle) (procs : List (ℕ × ℕ)) (hij : j ≠ i)
    (hkey : (min i j, max i j) ∉ procs)
    (hnear : distOf sq ((ps.getD j default).pos.1 - axy.1) ((ps.getD j default).pos.2 - axy.2)
        < minDistOf (ps.getD i default) (ps.getD j default)) :
    pairBody sq h i axy (ps, procs) j =
      ((ps.set i (pairResolve sq h axy (ps.getD i default) (ps.getD j default)).1).set j
        (pairResolve sq h axy (ps.getD i default) (ps.getD j default)).2,
       (min i j, max i j) :: procs) := by
  simp only [pairBody, if_neg hij]
  rw [if_neg hkey, if_pos hnear]

lemma foldl_pairBody_skips (sq : ℚ → ℚ) (h : ℚ) (i : ℕ) (axy : ℚ × ℚ)
    (js : List ℕ) (S : List Particle × List (ℕ × ℕ))
    (hall : ∀ j ∈ js, j = i ∨ (min i j, max i j) ∈ S.2) :
    js.foldl (pairBody sq h i axy) S = S := by
  induction js with
  | nil => rfl
  | cons j js ih =>
    have hstep : pairBody sq h i axy S j = S := by
      by_cases hji : j = i
      · rw [hji]; exact pairBody_self sq h i axy S
      · exact pairBody_mem sq h i j axy S hji ((hall j (by simp)).resolve_left hji)
    rw [List.foldl_cons, hstep]
    exact ih (fun t ht => hall t (by simp [ht]))

lemma pairBody_snd_sub (sq : ℚ → ℚ) (h : ℚ) (i j : ℕ) (axy : ℚ × ℚ)
    (S : List Particle × List (ℕ × ℕ)) : S.2 ⊆ (pairBody sq h i axy S j).2 := by
  simp only [pairBody]
  split_ifs <;> simp [List.subset_cons_self]

lemma foldl_pairBody_fst (sq : ℚ → ℚ) (h : ℚ) (i : ℕ) (axy : ℚ × ℚ)
    (js : List ℕ) :
    ∀ (ps : List Particle) (procs : List (ℕ × ℕ)),
    (∀ (procs2 : List (ℕ × ℕ)), procs ⊆ procs2 → ∀ j ∈ js,
      (pairBody sq h i axy (ps, procs2) j).1 = ps) →
    (js.foldl (pairBody sq h i axy) (ps, procs)).1 = ps := by
  induction js with
  | nil => intro ps procs _; rfl
  | cons j js ih =>
    intro ps procs hall
    rw [List.foldl_cons]
    have h1 : (pairBody sq h i axy (ps, procs) j).1 = ps :=
      hall procs (List.Subset.refl procs) j (by simp)
    have hsub : procs ⊆ (pairBody sq h i axy (ps, procs) j).2 :=
      pairBody_snd_sub sq h i j axy (ps, procs)
    have heq : pairBody sq h i axy (ps, procs) j =
        (ps, (pairBody sq h i axy (ps, procs) j).2) :=
      Prod.ext h1 rfl
    rw [heq]
    exact ih ps _ (fun procs2 hp2 t ht =>
      hall procs2 (List.Subset.trans hsub hp2) t (by simp [ht]))

lemma foldl_pairBody_once (sq : ℚ → ℚ) (h : ℚ) (i t : ℕ) (axy : ℚ × ℚ)
    (hti : t ≠ i) (js : List ℕ) :
    ∀ (ps : List Particle) (procs : List (ℕ × ℕ)),
    t ∈ js → (∀ j ∈ js, j = i ∨ j = t) → (min i t, max i t) ∉ procs →
    js.foldl (pairBody sq h i axy) (ps, procs) =
      ((pairBody sq h i axy (ps, procs) t).1, (min i t, max i t) :: procs) := by
  induction js with
  | nil => intro ps procs hmem _ _; cases hmem
  | cons j js ih =>
    intro ps procs hmem hsub hkey
    rcases hsub j (by simp) with hj | hj
    · subst hj
      rw [List.foldl_cons, pairBody_self]
      have hmem2 : t ∈ js := by
        rcases List.mem_cons.mp hmem with he | he
        · exact absurd he hti
        · exact he
      exact ih ps procs hmem2 (fun u hu => hsub u (by simp [hu])) hkey
    · rw [List.foldl_cons, hj]
      have hsnd : (pairBody sq h i axy (ps, procs) t).2 = (min i t, max i t) :: procs := by
        simp only [pairBody, if_neg hti, if_neg hkey]
        split_ifs <;> rfl
      have heq : pairBody sq h i axy (ps, procs) t =
          ((pairBody sq h i axy (ps, procs) t).1, (min i t, max i t) :: procs) := by
        rw [← hsnd]
      rw [heq]
      apply foldl_pairBody_skips
      intro u hu
      rcases hsub u (by simp [hu]) with h1 | h1
      · exact Or.inl h1
      · subst h1; exact Or.inr (by simp)

/-- `resolveCollisions` on a two-particle system whose pair overlaps and
whose second particle lies in the grid's covered region: the pair is
found, processed exactly once (from the side of particle 0), and the
result is the pair returned by the overlap-branch body. -/
lemma resolveCollisions_two (sq : ℚ → ℚ) (w h : ℚ) (a b : Particle)
    (hbx0 : 0 ≤ b.pos.1) (hbx1 : b.pos.1 < (gCols w 24 : ℚ) * gCell 24)
    (hby0 : 0 ≤ b.pos.2) (hby1 : b.pos.2 < (gRows h 24 : ℚ) * gCell 24)
    (hdist : (b.pos.1 - a.pos.1) ^ 2 + (b.pos.2 - a.pos.2) ^ 2 ≤ 16 ^ 2)
    (hnear : distOf sq (b.pos.1 - a.pos.1) (b.pos.2 - a.pos.2) < minDistOf a b) :
    resolveCollisions sq w h [a, b] =
      [(pairResolve sq h a.pos a b).1, (pairResolve sq h a.pos a b).2] := by
  have hlen : ([a, b] : List Particle).length = 2 := rfl
  have hrange : List.range ([a, b] : List Particle).length = [0, 1] := rfl
  simp only [resolveCollisions, hrange, List.foldl_cons, List.foldl_nil]
  have hget0 : ([a, b] : List Particle).getD 0 default = a := rfl
  have hget1 : ([a, b] : List Particle).getD 1 default = b := rfl
  have hmem1 : 1 ∈ forNeighborsG w h 24 [a, b] a.pos.1 a.pos.2 16 := by
    have := forNeighborsG_no_false_neg w h 24 [a, b] a.pos.1 a.pos.2 16 1
      (by norm_num) (by rw [hget1]; exact hbx0) (by rw [hget1]; exact hbx1)
      (by rw [hget1]; exact hby0) (by rw [hget1]; exact hby1) (by norm_num)
      (by rw [hget1]; exact hdist)
    exact this
  have hF0 : (forNeighborsG w h 24 [a, b] a.pos.1 a.pos.2 16).foldl
      (pairBody sq h 0 a.pos) ([a, b], ([] : List (ℕ × ℕ))) =
      ((pairBody sq h 0 a.pos ([a, b], []) 1).1, (0, 1) :: []) := by
    have := foldl_pairBody_once sq h 0 1 a.pos (by norm_num)
      (forNeighborsG w h 24 [a, b] a.pos.1 a.pos.2 16) [a, b] [] hmem1
      (fun j hj => by
        have := forNeighborsG_lt_length hj
        rw [hlen] at this
        omega)
      (by simp)
    simpa using this
  have hP1 : (pairBody sq h 0 a.pos ([a, b], []) 1).1 =
      [(pairResolve sq h a.pos a b).1, (pairResolve sq h a.pos a b).2] := by
    rw [pairBody_near sq h 0 1 a.pos [a, b] [] (by norm_num) (by simp)
      (by rw [hget0, hget1]; exact hnear)]
    rw [hget0, hget1]
    rfl
  rw [hget0, hF0, hP1]
  set P := [(pairResolve sq h a.pos a b).1, (pairResolve sq h a.pos a b).2] with hPdef
  have hPlen : P.length = 2 := rfl
  have hfin : ((forNeighborsG w h 24 [a, b] (P.getD 1 default).pos.1
      (P.getD 1 default).pos.2 16).foldl (pairBody sq h 1 (P.getD 1 default).pos)
      (P, [(0, 1)])).1 = P := by
    apply foldl_pairBody_fst
    intro procs2 hp2 j hj
    have hj2 := forNeighborsG_lt_length hj
    rw [hlen] at hj2
    have hj01 : j = 0 ∨ j = 1 := by omega
    rcases hj01 with hj0 | hj1
    · subst hj0
      have hkey : ((min 1 0, max 1 0) : ℕ × ℕ) ∈ procs2 := by
        have : ((min 1 0, max 1 0) : ℕ × ℕ) = ((0 : ℕ), (1 : ℕ)) := by norm_num
        rw [this]
        exact hp2 (by simp)
      rw [pairBody_mem sq h 1 0 _ (P, procs2) (by norm_num) hkey]
    · subst hj1
      rw [pairBody_self]
  exact hfin

lemma distOf_evalC (sq : ℚ → ℚ) (R : ℚ) (hR : 0 < R) (hsq : sq (R * R) = R) :
    ∀ dx dy : ℚ, dx * dx + dy * dy = R * R → distOf sq dx dy = R := by
  intro dx dy hdd
  simp only [distOf, hypotE, hdd, hsq]
  rw [if_neg hR.ne']

lemma iterateN_fix (f : α → α) (x : α) (hx : f x = x) : ∀ n, iterateN f n x = x := by
  intro n
  induction n with
  | zero => rfl
  | succ n ih => rw [iterateN, hx]; exact ih

lemma resolveCollisions_fix (sq : ℚ → ℚ) (w h : ℚ) (a b : Particle)
    (hfar1 : ¬ distOf sq (b.pos.1 - a.pos.1) (b.pos.2 - a.pos.2) < minDistOf a b)
    (hfar2 : ¬ distOf sq (a.pos.1 - b.pos.1) (a.pos.2 - b.pos.2) < minDistOf b a) :
    resolveCollisions sq w h [a, b] = [a, b] := by
  have hrange : List.range ([a, b] : List Particle).length = [0, 1] := rfl
  simp only [resolveCollisions, hrange, List.foldl_cons, List.foldl_nil]
  have hget0 : ([a, b] : List Particle).getD 0 default = a := rfl
  have hget1 : ([a, b] : List Particle).getD 1 default = b := rfl
  rw [hget0]
  have h0 : ((forNeighborsG w h 24 [a, b] a.pos.1 a.pos.2 16).foldl
      (pairBody sq h 0 a.pos) ([a, b], ([] : List (ℕ × ℕ)))).1 = [a, b] := by
    apply foldl_pairBody_fst
    intro procs2 _ j hj
    have hj2 := forNeighborsG_lt_length hj
    simp only [List.length_cons, List.length_nil] at hj2
    have hj01 : j = 0 ∨ j = 1 := by omega
    rcases hj01 with hj0 | hj1
    · subst hj0; rw [pairBody_self]
    · subst hj1
      by_cases hk : ((min 0 1, max 0 1) : ℕ × ℕ) ∈ procs2
      · rw [pairBody_mem sq h 0 1 a.pos ([a, b], procs2) (by norm_num) hk]
      · rw [pairBody_far sq h 0 1 a.pos [a, b] procs2 (by norm_num) hk hfar1]
  have hS1 : (forNeighborsG w h 24 [a, b] a.pos.1 a.pos.2 16).foldl
      (pairBody sq h 0 a.pos) ([a, b], ([] : List (ℕ × ℕ))) =
      ([a, b], ((forNeighborsG w h 24 [a, b] a.pos.1 a.pos.2 16).foldl
        (pairBody sq h 0 a.pos) ([a, b], ([] : List (ℕ × ℕ)))).2) :=
    Prod.ext h0 rfl
  rw [hS1, hget1]
  apply foldl_pairBody_fst
  intro procs2 _ j hj
  have hj2 := forNeighborsG_lt_length hj
  simp only [List.length_cons, List.length_nil] at hj2
  have hj01 : j = 0 ∨ j = 1 := by omega
  rcases hj01 with hj0 | hj1
  · subst hj0
    by_cases hk : ((min 1 0, max 1 0) : ℕ × ℕ) ∈ procs2
    · rw [pairBody_mem sq h 1 0 b.pos ([a, b], procs2) (by norm_num) hk]
    · rw [pairBody_far sq h 1 0 b.pos [a, b] procs2 (by norm_num) hk hfar2]
  · subst hj1; rw [pairBody_self]

lemma pairMove_free (h nx ny overlap : ℚ) (a b : Particle)
    (hra : a.radius ≠ 0) (hrb : b.radius ≠ 0)
    (hmeq : a.mass = b.mass) (hmp : 0 < b.mass) (hmle : b.mass ≤ 1000000000)
    (hgA : ¬ (h - a.radius - 0.6 ≤ a.pos.2))
    (hgB : ¬ (h - b.radius - 0.6 ≤ b.pos.2)) :
    pairMove h nx ny overlap a b =
      ({ a with pos := (a.pos.1 - nx * (overlap / 2), a.pos.2 - ny * (overlap / 2)) },
       { b with pos := (b.pos.1 + nx * (overlap / 2), b.pos.2 + ny * (overlap / 2)) }) := by
  have horA : orQ a.radius 3 = a.radius := if_neg hra
  have horB : orQ b.radius 3 = b.radius := if_neg hrb
  have hmap : a.mass ≠ 0 := by rw [hmeq]; exact hmp.ne'
  have hmbne : b.mass ≠ 0 := hmp.ne'
  have horMa : orQ a.mass 1 = a.mass := if_neg hmap
  have horMb : orQ b.mass 1 = b.mass := if_neg hmbne
  have hmax : max (1e-9 : ℚ) (1 / a.mass + 1 / b.mass) = 1 / a.mass + 1 / b.mass := by
    apply max_eq_right
    have h1 : (1e-9 : ℚ) ≤ 1 / b.mass := by
      rw [le_div_iff hmp]
      nlinarith
    have hap : 0 < a.mass := by rw [hmeq]; exact hmp
    have h2 : 0 < 1 / a.mass := by positivity
    linarith
  have hhalfa : 1 / a.mass / (1 / a.mass + 1 / b.mass) = 1 / 2 := by
    rw [hmeq]
    rw [div_add_div_same, div_div_div_cancel_right₀]
    · norm_num
    · exact hmbne
  have hhalfb : 1 / b.mass / (1 / a.mass + 1 / b.mass) = 1 / 2 := by
    rw [hmeq]
    rw [div_add_div_same, div_div_div_cancel_right₀]
    · norm_num
    · exact hmbne
  simp only [pairMove, horA, horB, horMa, horMb, hgA, hgB, false_and, and_false,
    if_false, hmax, hhalfa, hhalfb, mul_one_div]

lemma pairRecheck_ok (sq : ℚ → ℚ) (minDist : ℚ) (a1 b1 : Particle)
    (hfar : ¬ distOf sq (b1.pos.1 - a1.pos.1) (b1.pos.2 - a1.pos.2) < minDist * 0.99) :
    pairRecheck sq minDist a1 b1 = (a1, b1) := by
  simp only [pairRecheck]
  rw [if_neg hfar]

lemma pairImpulse_rest (sq : ℚ → ℚ) (nx ny : ℚ) (a2 b2 : Particle)
    (hv : b2.vel = a2.vel) :
    pairImpulse sq nx ny a2 b2 = (a2, b2) := by
  simp only [pairImpulse, hv, sub_self, zero_mul, zero_add, add_zero,
    lt_self_iff_false, if_false]

set_option maxHeartbeats 1000000 in
lemma pairResolve_stationary (sq : ℚ → ℚ) (h : ℚ) (a b : Particle) (d : ℚ)
    (hvA : a.vel = (0, 0)) (hvB : b.vel = (0, 0))
    (hra : a.radius ≠ 0) (hrb : b.radius ≠ 0)
    (hRpos : 0 < a.radius + b.radius)
    (hmeq : a.mass = b.mass) (hmp : 0 < b.mass) (hmle : b.mass ≤ 1000000000)
    (hd0 : 0 < d) (hdR : d < a.radius + b.radius)
    (hdd : (b.pos.1 - a.pos.1) * (b.pos.1 - a.pos.1) +
           (b.pos.2 - a.pos.2) * (b.pos.2 - a.pos.2) = d * d)
    (hsqd : sq (d * d) = d)
    (hsqR : sq ((a.radius + b.radius) * (a.radius + b.radius)) = a.radius + b.radius)
    (hgA : ¬ (h - a.radius - 0.6 ≤ a.pos.2))
    (hgB : ¬ (h - b.radius - 0.6 ≤ b.pos.2)) :
    pairResolve sq h a.pos a b =
      ({ a with pos := (a.pos.1 - (b.pos.1 - a.pos.1) / d * ((a.radius + b.radius - d) / 2),
                        a.pos.2 - (b.pos.2 - a.pos.2) / d * ((a.radius + b.radius - d) / 2)) },
       { b with pos := (b.pos.1 + (b.pos.1 - a.pos.1) / d * ((a.radius + b.radius - d) / 2),
                        b.pos.2 + (b.pos.2 - a.pos.2) / d * ((a.radius + b.radius - d) / 2)) }) := by
  have hminD : minDistOf a b = a.radius + b.radius := by
    simp only [minDistOf, orQ, hra, hrb, if_false]
  have hdistd : distOf sq (b.pos.1 - a.pos.1) (b.pos.2 - a.pos.2) = d :=
    distOf_evalC sq d hd0 hsqd _ _ hdd
  simp only [pairResolve, hdistd, hminD]
  rw [pairMove_free h _ _ _ a b hra hrb hmeq hmp hmle hgA hgB]
  dsimp only
  simp only [pairRecheck]
  rw [distOf_evalC sq (a.radius + b.radius) hRpos hsqR]
  · have hrc : ¬ (a.radius + b.radius < (a.radius + b.radius) * 0.99) := by nlinarith
    rw [if_neg hrc]
    rw [pairImpulse_rest sq]
    dsimp only
    rw [hvA, hvB]
  · have hdne : d ≠ 0 := hd0.ne'
    field_simp
    ring_nf
    ring_nf at hdd
    linear_combination 4 * (a.radius + b.radius) ^ 2 * hdd

set_option maxHeartbeats 1000000 in
/-- C6 (amended): two overlapping stationary particles of equal radius
and equal mass, whose centers are distinct (displacement of length
`d > 0`), neither resting on the floor, the second in the grid's covered
region: every number `N ≥ 1` of collision-resolver iterations separates
the pair to exactly `radius_a + radius_b` (the first pass does it, later
passes are no-ops), and no impulse is applied — both velocities, hence
both momenta, are unchanged.  (With coincident centers the normal vector
degenerates to zero and the pair never separates — see the
counterexample.) -/
theorem c6_overlap_resolution (sq : ℚ → ℚ) (w h : ℚ) (a b : Particle) (d : ℚ) (N : ℕ)
    (hN : 1 ≤ N)
    (hvA : a.vel = (0, 0)) (hvB : b.vel = (0, 0))
    (hra : a.radius ≠ 0) (hrb : b.radius ≠ 0)
    (hRpos : 0 < a.radius + b.radius)
    (hmeq : a.mass = b.mass) (hmp : 0 < b.mass) (hmle : b.mass ≤ 1000000000)
    (hd0 : 0 < d) (hdR : d < a.radius + b.radius) (hd16 : d ≤ 16)
    (hdd : (b.pos.1 - a.pos.1) * (b.pos.1 - a.pos.1) +
           (b.pos.2 - a.pos.2) * (b.pos.2 - a.pos.2) = d * d)
    (hsqd : sq (d * d) = d)
    (hsqR : sq ((a.radius + b.radius) * (a.radius + b.radius)) = a.radius + b.radius)
    (hgA : ¬ (h - a.radius - 0.6 ≤ a.pos.2))
    (hgB : ¬ (h - b.radius - 0.6 ≤ b.pos.2))
    (hbx0 : 0 ≤ b.pos.1) (hbx1 : b.pos.1 < (gCols w 24 : ℚ) * gCell 24)
    (hby0 : 0 ≤ b.pos.2) (hby1 : b.pos.2 < (gRows h 24 : ℚ) * gCell 24) :
    ∃ a1 b1 : Particle,
      iterateN (resolveCollisions sq w h) N [a, b] = [a1, b1] ∧
      (b1.pos.1 - a1.pos.1) * (b1.pos.1 - a1.pos.1) +
        (b1.pos.2 - a1.pos.2) * (b1.pos.2 - a1.pos.2) =
        minDistOf a b * minDistOf a b ∧
      a1.vel = a.vel ∧ b1.vel = b.vel ∧ a1.mass = a.mass ∧ b1.mass = b.mass := by
  have hdne : d ≠ 0 := hd0.ne'
  have hminD : minDistOf a b = a.radius + b.radius := by
    simp only [minDistOf, orQ, hra, hrb, if_false]
  have hnear : distOf sq (b.pos.1 - a.pos.1) (b.pos.2 - a.pos.2) < minDistOf a b := by
    rw [distOf_evalC sq d hd0 hsqd _ _ hdd, hminD]
    exact hdR
  have hd16s : (b.pos.1 - a.pos.1) ^ 2 + (b.pos.2 - a.pos.2) ^ 2 ≤ 16 ^ 2 := by
    have h2 : (b.pos.1 - a.pos.1) ^ 2 + (b.pos.2 - a.pos.2) ^ 2 = d * d := by
      rw [← hdd]; ring
    rw [h2]
    nlinarith
  have hstep1 : resolveCollisions sq w h [a, b] =
      [(pairResolve sq h a.pos a b).1, (pairResolve sq h a.pos a b).2] :=
    resolveCollisions_two sq w h a b hbx0 hbx1 hby0 hby1 hd16s hnear
  rw [pairResolve_stationary sq h a b d hvA hvB hra hrb hRpos hmeq hmp hmle hd0 hdR
    hdd hsqd hsqR hgA hgB] at hstep1
  dsimp only at hstep1
  have hfarlen : ∀ X Y : ℚ, X = b.pos.1 + (b.pos.1 - a.pos.1) / d * ((a.radius + b.radius - d) / 2) -
      (a.pos.1 - (b.pos.1 - a.pos.1) / d * ((a.radius + b.radius - d) / 2)) →
      Y = b.pos.2 + (b.pos.2 - a.pos.2) / d * ((a.radius + b.radius - d) / 2) -
      (a.pos.2 - (b.pos.2 - a.pos.2) / d * ((a.radius + b.radius - d) / 2)) →
      X * X + Y * Y = (a.radius + b.radius) * (a.radius + b.radius) := by
    intro X Y hX hY
    subst hX; subst hY
    field_simp
    linear_combination 4 * (a.radius + b.radius) ^ 2 * hdd
  refine ⟨{ a with pos := (a.pos.1 - (b.pos.1 - a.pos.1) / d * ((a.radius + b.radius - d) / 2),
                           a.pos.2 - (b.pos.2 - a.pos.2) / d * ((a.radius + b.radius - d) / 2)) },
          { b with pos := (b.pos.1 + (b.pos.1 - a.pos.1) / d * ((a.radius + b.radius - d) / 2),
                           b.pos.2 + (b.pos.2 - a.pos.2) / d * ((a.radius + b.radius - d) / 2)) },
          ?_, ?_, rfl, rfl, rfl, rfl⟩
  · have hfix : resolveCollisions sq w h
        [{ a with pos := (a.pos.1 - (b.pos.1 - a.pos.1) / d * ((a.radius + b.radius - d) / 2),
                          a.pos.2 - (b.pos.2 - a.pos.2) / d * ((a.radius + b.radius - d) / 2)) },
         { b with pos := (b.pos.1 + (b.pos.1 - a.pos.1) / d * ((a.radius + b.radius - d) / 2),
                          b.pos.2 + (b.pos.2 - a.pos.2) / d * ((a.radius + b.radius - d) / 2)) }] =
        [{ a with pos := (a.pos.1 - (b.pos.1 - a.pos.1) / d * ((a.radius + b.radius - d) / 2),
                          a.pos.2 - (b.pos.2 - a.pos.2) / d * ((a.radius + b.radius - d) / 2)) },
         { b with pos := (b.pos.1 + (b.pos.1 - a.pos.1) / d * ((a.radius + b.radius - d) / 2),
                          b.pos.2 + (b.pos.2 - a.pos.2) / d * ((a.radius + b.radius - d) / 2)) }] := by
      apply resolveCollisions_fix
      · rw [distOf_evalC sq (a.radius + b.radius) hRpos hsqR]
        · show ¬ (a.radius + b.radius < minDistOf _ _)
          have : minDistOf
              ({ a with pos := (a.pos.1 - (b.pos.1 - a.pos.1) / d * ((a.radius + b.radius - d) / 2),
                                a.pos.2 - (b.pos.2 - a.pos.2) / d * ((a.radius + b.radius - d) / 2)) } : Particle)
              ({ b with pos := (b.pos.1 + (b.pos.1 - a.pos.1) / d * ((a.radius + b.radius - d) / 2),
                                b.pos.2 + (b.pos.2 - a.pos.2) / d * ((a.radius + b.radius - d) / 2)) } : Particle) =
              a.radius + b.radius := by
            simp only [minDistOf, orQ, hra, hrb, if_false]
          rw [this]
          exact lt_irrefl _
        · exact hfarlen _ _ rfl rfl
      · rw [distOf_evalC sq (a.radius + b.radius) hRpos hsqR]
        · show ¬ (a.radius + b.radius < minDistOf _ _)
          have : minDistOf
              ({ b with pos := (b.pos.1 + (b.pos.1 - a.pos.1) / d * ((a.radius + b.radius - d) / 2),
                                b.pos.2 + (b.pos.2 - a.pos.2) / d * ((a.radius + b.radius - d) / 2)) } : Particle)
              ({ a with pos := (a.pos.1 - (b.pos.1 - a.pos.1) / d * ((a.radius + b.radius - d) / 2),
                                a.pos.2 - (b.pos.2 - a.pos.2) / d * ((a.radius + b.radius - d) / 2)) } : Particle) =
              b.radius + a.radius := by
            simp only [minDistOf, orQ, hra, hrb, if_false]
          rw [this]
          rw [add_comm b.radius a.radius]
          exact lt_irrefl _
        · have h1 := hfarlen
            (b.pos.1 + (b.pos.1 - a.pos.1) / d * ((a.radius + b.radius - d) / 2) -
              (a.pos.1 - (b.pos.1 - a.pos.1) / d * ((a.radius + b.radius - d) / 2)))
            (b.pos.2 + (b.pos.2 - a.pos.2) / d * ((a.radius + b.radius - d) / 2) -
              (a.pos.2 - (b.pos.2 - a.pos.2) / d * ((a.radius + b.radius - d) / 2))) rfl rfl
          dsimp only
          linear_combination h1
    obtain ⟨M, rfl⟩ : ∃ M, N = M + 1 := ⟨N - 1, by omega⟩
    have hiter : iterateN (resolveCollisions sq w h) (M + 1) [a, b] =
        iterateN (resolveCollisions sq w h) M (resolveCollisions sq w h [a, b]) := rfl
    rw [hiter, hstep1]
    exact iterateN_fix _ _ hfix M
  · rw [hminD]
    exact hfarlen _ _ rfl rfl

/-- Square-root oracle for the C6 witness: correct at the two radicands
the run needs (`16` for the initial separation 4, `36` for the resolved
separation 6). -/
def c6sqW : ℚ → ℚ := fun q => if q = 16 then 4 else if q = 36 then 6 else 0

/-- First particle of the C6 witness: stationary, radius 3, mass 1. -/
def c6pa : Particle :=
  { pos := (50, 50), vel := (0, 0), acc := (0, 0), mass := 1, radius := 3,
    state := .liquid, gasUntil := 0, localNeighbors := 0,
    thermalEnergy := 0, lastStateChange := 0 }

/-- Second particle of the C6 witness: same, 4 units to the right (the
pair overlaps, since the radii sum to 6). -/
def c6pb : Particle := { c6pa with pos := (54, 50) }

theorem c6_witness :
    ∃ a1 b1 : Particle,
      iterateN (resolveCollisions c6sqW 200 100) 1 [c6pa, c6pb] = [a1, b1] ∧
      (b1.pos.1 - a1.pos.1) * (b1.pos.1 - a1.pos.1) +
        (b1.pos.2 - a1.pos.2) * (b1.pos.2 - a1.pos.2) =
        minDistOf c6pa c6pb * minDistOf c6pa c6pb ∧
      a1.vel = c6pa.vel ∧ b1.vel = c6pb.vel ∧
      a1.mass = c6pa.mass ∧ b1.mass = c6pb.mass := by
  have hc : gCell 24 = 24 := by norm_num [gCell]
  have hcols : gCols 200 24 = 8 := by
    norm_num [gCols, hc]
    omega
  have hrows : gRows 100 24 = 4 := by
    norm_num [gRows, hc]
    omega
  exact c6_overlap_resolution c6sqW 200 100 c6pa c6pb 4 1
    le_rfl rfl rfl
    (by norm_num [c6pa]) (by norm_num [c6pb, c6pa])
    (by norm_num [c6pa, c6pb])
    rfl (by norm_num [c6pb, c6pa]) (by norm_num [c6pb, c6pa])
    (by norm_num) (by norm_num [c6pa, c6pb]) (by norm_num)
    (by norm_num [c6pa, c6pb])
    (by norm_num [c6sqW])
    (by norm_num [c6sqW, c6pa, c6pb])
    (by norm_num [c6pa])
    (by norm_num [c6pb, c6pa])
    (by norm_num [c6pb, c6pa]) (by rw [hcols, hc]; norm_num [c6pb, c6pa])
    (by norm_num [c6pb, c6pa]) (by rw [hrows, hc]; norm_num [c6pb, c6pa])

/-- C6 counterexample: two exactly coincident stationary particles
(radius 3 each, so `minDist = 6`).  The collision pass finds the overlap,
but the degenerate distance guard turns the separation `1e-9` into a
zero normal vector, so every position correction is `0`: after the full
5-iteration resolver loop the particles still coincide, violating the
claimed post-resolution separation `≥ radius_a + radius_b` (within
tolerance `1e-3`) for initially overlapping stationary pairs. -/
theorem c6_counterexample :
    iterateN (resolveCollisions (fun _ => (0 : ℚ)) 200 100) 5 [c6pa, c6pa] = [c6pa, c6pa] ∧
    minDistOf c6pa c6pa = 6 := by
  have hc : gCell 24 = 24 := by norm_num [gCell]
  have hcols : gCols 200 24 = 8 := by
    norm_num [gCols, hc]
    omega
  have hrows : gRows 100 24 = 4 := by
    norm_num [gRows, hc]
    omega
  have hP : pairResolve (fun _ => (0 : ℚ)) 100 c6pa.pos c6pa c6pa = (c6pa, c6pa) := by
    norm_num [pairResolve, pairMove, pairRecheck, pairImpulse, distOf, hypotE,
      minDistOf, orQ, c6pa]
  have h2 := resolveCollisions_two (fun _ => (0 : ℚ)) 200 100 c6pa c6pa
    (by norm_num [c6pa]) (by rw [hcols, hc]; norm_num [c6pa])
    (by norm_num [c6pa]) (by rw [hrows, hc]; norm_num [c6pa])
    (by norm_num [c6pa])
    (by norm_num [distOf, hypotE, minDistOf, orQ, c6pa])
  rw [hP] at h2
  refine ⟨iterateN_fix _ _ h2 5, by norm_num [minDistOf, orQ, c6pa]⟩

/-! ### Quiet two-particle system (claim C7) -/

lemma foldl_const (f : β → α → β) (l : List α) (b : β)
    (h : ∀ x ∈ l, ∀ y, f y x = y) : l.foldl f b = b := by
  induction l generalizing b with
  | nil => rfl
  | cons x l ih =>
    rw [List.foldl_cons, h x (by simp) b]
    exact ih b (fun x2 hx2 y => h x2 (by simp [hx2]) y)

/-- Beyond the Lennard-Jones cutoff `2.5 * sigma` (hence also beyond the
hydrogen-bond cutoff `1.8 * sigma` and the dipole cutoff `2.2 * sigma`),
the whole weighted pair contribution vanishes. -/
lemma pairContrib_far (sq : ℚ → ℚ) (P : SimParams) (sa sb : Phase) (rVec : ℚ × ℚ)
    (hs : 0 ≤ P.sigma) (hr : 2.5 * P.sigma < vLen sq rVec + 1e-9) :
    pairContrib sq P sa sb rVec = (0, 0) := by
  have hlj : ljMag P (vLen sq rVec + 1e-9) = 0 := by
    simp only [ljMag]
    rw [if_pos hr]
    simp [clamp]
  have hhb : hbForce sq P rVec = (0, 0) := by
    simp only [hbForce]
    split_ifs with h1 h2
    · rfl
    · rfl
    · exfalso; apply h2; nlinarith
  have hdp : dipoleForce sq P rVec = (0, 0) := by
    simp only [dipoleForce]
    split_ifs with h1 h2
    · rfl
    · rfl
    · exfalso; apply h2; nlinarith
  simp only [pairContrib, ljForce, hlj, hhb, hdp, vMul, vAdd, neg_zero, mul_zero,
    zero_mul, add_zero, zero_add]

lemma reset_noop (p : Particle) (ha : p.acc = (0, 0)) (hl : p.localNeighbors = 0) :
    ({ p with acc := (0, 0), localNeighbors := 0 } : Particle) = p := by
  cases p
  simp_all

lemma te_noop (p : Particle) (dt : ℚ) (hte : p.thermalEnergy = 0) (hdt : 0 ≤ dt)
    (c : ℚ) (hc : 0 ≤ c) :
    ({ p with thermalEnergy := max 0 (p.thermalEnergy - c * dt) } : Particle) = p := by
  cases p
  simp_all
  exact mul_nonneg hc hdt

lemma handleWalls_noop (w h : ℚ) (p : Particle) (hr : p.radius ≠ 0)
    (hx0 : p.radius ≤ p.pos.1) (hx1 : p.pos.1 ≤ w - p.radius)
    (hy0 : p.radius ≤ p.pos.2) (hy1 : p.pos.2 ≤ h - p.radius) :
    handleWalls w h p = p := by
  simp only [handleWalls, orQ, hr, if_false]
  rw [if_neg (not_lt.mpr hx0), if_neg (not_lt.mpr hx1), if_neg (not_lt.mpr hy0),
    if_neg (not_lt.mpr hy1)]

lemma classifyCore_quiet (kT visc hgt now : ℚ) (p : Particle)
    (hv : p.vel = (0, 0)) (hte : p.thermalEnergy = 0) (hst : p.state = Phase.liquid) :
    classifyCore kT visc hgt now p = p := by
  simp only [classifyCore, hv, hte, hst]
  norm_num

lemma accln_eta (p : Particle) :
    ({ p with acc := (p.acc.1, p.acc.2), localNeighbors := p.localNeighbors } : Particle) = p := by
  cases p
  rfl

lemma acc_eta (p : Particle) :
    ({ p with acc := (p.acc.1, p.acc.2) } : Particle) = p := by
  cases p
  rfl

lemma forceAt_quiet (sq : ℚ → ℚ) (P : SimParams) (w h : ℚ) (q1 q2 : Particle) (L : ℚ)
    (hs : 0 ≤ P.sigma) (hL25 : 2.5 * P.sigma ≤ L)
    (hsq : ∀ q : ℚ, q = (q2.pos.1 - q1.pos.1) * (q2.pos.1 - q1.pos.1) +
        (q2.pos.2 - q1.pos.2) * (q2.pos.2 - q1.pos.2) → sq q = L)
    (i : ℕ) (hi : i < 2) :
    forceAt sq P w h [q1, q2] i = [q1, q2].getD i default := by
  simp only [forceAt]
  rw [foldl_const]
  intro j hj r
  by_cases hji : j = i
  · rw [if_pos hji]
  · rw [if_neg hji]
    have hj2 := forNeighborsG_lt_length hj
    simp only [List.length_cons, List.length_nil] at hj2
    have hcases : i = 0 ∧ j = 1 ∨ i = 1 ∧ j = 0 := by omega
    have hfar : ∀ dx dy : ℚ,
        dx * dx + dy * dy = (q2.pos.1 - q1.pos.1) * (q2.pos.1 - q1.pos.1) +
          (q2.pos.2 - q1.pos.2) * (q2.pos.2 - q1.pos.2) →
        (vAdd r.1 (pairContrib sq P ([q1, q2].getD i default).state
            ([q1, q2].getD j default).state (dx, dy)),
          if hypotE sq dx dy < 2.4 * P.sigma then r.2 + 1 else r.2) = r := by
      intro dx dy hdxy
      have hlen : hypotE sq dx dy = L := by
        simp only [hypotE]
        exact hsq _ hdxy
      have hvlen : vLen sq (dx, dy) = L := hlen
      have hpc : pairContrib sq P ([q1, q2].getD i default).state
          ([q1, q2].getD j default).state (dx, dy) = (0, 0) :=
        pairContrib_far sq P _ _ (dx, dy) hs (by rw [hvlen]; nlinarith)
      rw [hpc, hlen, if_neg (not_lt.mpr (by nlinarith))]
      simp [vAdd]
    rcases hcases with ⟨hi0, hj1⟩ | ⟨hi1, hj0⟩
    · subst hi0; subst hj1
      exact hfar _ _ rfl
    · subst hi1; subst hj0
      exact hfar _ _ (by
        simp only [List.getD_cons_zero, List.getD_cons_succ]
        ring)

lemma forcesReset_quiet (q1 q2 : Particle)
    (ha1 : q1.acc = (0, 0)) (hl1 : q1.localNeighbors = 0)
    (ha2 : q2.acc = (0, 0)) (hl2 : q2.localNeighbors = 0) :
    forcesReset [q1, q2] = [q1, q2] := by
  simp only [forcesReset, List.map_cons, List.map_nil]
  rw [reset_noop q1 ha1 hl1, reset_noop q2 ha2 hl2]

lemma forcesLoop_quiet (sq : ℚ → ℚ) (P : SimParams) (w h : ℚ) (q1 q2 : Particle) (L : ℚ)
    (hs : 0 ≤ P.sigma) (hL25 : 2.5 * P.sigma ≤ L)
    (hsq : ∀ q : ℚ, q = (q2.pos.1 - q1.pos.1) * (q2.pos.1 - q1.pos.1) +
        (q2.pos.2 - q1.pos.2) * (q2.pos.2 - q1.pos.2) → sq q = L) :
    forcesLoop sq P w h [q1, q2] = [q1, q2] := by
  have hr : List.range ([q1, q2] : List Particle).length = [0, 1] := rfl
  simp only [forcesLoop, hr, List.map_cons, List.map_nil]
  rw [forceAt_quiet sq P w h q1 q2 L hs hL25 hsq 0 (by norm_num),
    forceAt_quiet sq P w h q1 q2 L hs hL25 hsq 1 (by norm_num)]
  rfl

lemma vel_set_self (p : Particle) (v : ℚ × ℚ) (hv : p.vel = v) :
    ({ p with vel := v } : Particle) = p := by
  cases p
  simp_all

lemma dragKick_quiet (E : Env) (sIdx : ℕ) (P : SimParams) (hkT : P.kT = 0)
    (hsq0 : E.sq 0 = 0) (q1 q2 : Particle)
    (hv1 : q1.vel = (0, 0)) (hv2 : q2.vel = (0, 0)) :
    dragKick E sIdx P [q1, q2] = [q1, q2] := by
  have hsig : E.sq (2 * 0.3 * max 0 P.kT) = 0 := by
    rw [hkT]
    norm_num [hsq0]
  simp only [dragKick, mapIdx, mapIdxFrom, hsig, hv1, hv2, mul_zero, add_zero,
    neg_mul, neg_zero, zero_add]
  norm_num
  exact ⟨vel_set_self q1 _ hv1, vel_set_self q2 _ hv2⟩

lemma rescale_noop (p : Particle) (s : ℚ) (hv : p.vel = (0, 0)) :
    (if thermoElig p then ({ p with vel := (p.vel.1 * s, p.vel.2 * s) } : Particle) else p) = p := by
  split_ifs
  · rw [hv]
    cases p
    simp_all
  · rfl

lemma thermostat_fst_quiet (E : Env) (sIdx : ℕ) (P : SimParams) (lt : ℚ)
    (q1 q2 : Particle) (hv1 : q1.vel = (0, 0)) (hv2 : q2.vel = (0, 0)) :
    (thermostat E sIdx P lt [q1, q2]).1 = [q1, q2] := by
  simp only [thermostat]
  split_ifs <;>
    first
      | rfl
      | (dsimp only
         simp only [List.map_cons, List.map_nil]
         rw [rescale_noop q1 _ hv1, rescale_noop q2 _ hv2])

lemma computeForces_quiet (E : Env) (sIdx : ℕ) (s : SimState) (q1 q2 : Particle) (L : ℚ)
    (hps : s.particles = [q1, q2]) (hkT : s.params.kT = 0)
    (hs : 0 ≤ s.params.sigma) (hL25 : 2.5 * s.params.sigma ≤ L)
    (hsq : ∀ q : ℚ, q = (q2.pos.1 - q1.pos.1) * (q2.pos.1 - q1.pos.1) +
        (q2.pos.2 - q1.pos.2) * (q2.pos.2 - q1.pos.2) → E.sq q = L)
    (hsq0 : E.sq 0 = 0)
    (hv1 : q1.vel = (0, 0)) (hv2 : q2.vel = (0, 0))
    (ha1 : q1.acc = (0, 0)) (hl1 : q1.localNeighbors = 0)
    (ha2 : q2.acc = (0, 0)) (hl2 : q2.localNeighbors = 0) :
    computeForces E sIdx s =
      { s with lastThermoMs := (thermostat E sIdx s.params s.lastThermoMs [q1, q2]).2 } := by
  simp only [computeForces, hps]
  rw [forcesReset_quiet q1 q2 ha1 hl1 ha2 hl2,
    forcesLoop_quiet E.sq s.params s.width s.height q1 q2 L hs hL25 hsq,
    dragKick_quiet E sIdx s.params hkT hsq0 q1 q2 hv1 hv2,
    thermostat_fst_quiet E sIdx s.params s.lastThermoMs q1 q2 hv1 hv2, ← hps]

lemma particles_set_self (s : SimState) (ps : List Particle) (h : s.particles = ps) :
    ({ s with particles := ps } : SimState) = s := by
  cases s
  simp_all

lemma gravityPhase_off (s : SimState) (hg : s.gravityOn = false) : gravityPhase s = s := by
  simp [gravityPhase, hg]

lemma buoyancyPhase_off (s : SimState) (hg : s.gravityOn = false) : buoyancyPhase s = s := by
  simp [buoyancyPhase, hg]

lemma heatingPhase_quiet (E : Env) (sIdx : ℕ) (dt : ℚ) (s : SimState) (q1 q2 : Particle)
    (hh : s.heatingOn = false) (hps : s.particles = [q1, q2]) (hdt : 0 ≤ dt)
    (hte1 : q1.thermalEnergy = 0) (hte2 : q2.thermalEnergy = 0) :
    heatingPhase E sIdx dt s = s := by
  simp only [heatingPhase]
  rw [if_neg (by simp [hh] : ¬(s.heatingOn = true)), hps]
  simp only [List.map_cons, List.map_nil]
  rw [te_noop q1 dt hte1 hdt 0.02 (by norm_num), te_noop q2 dt hte2 hdt 0.02 (by norm_num)]
  exact particles_set_self s [q1, q2] hps

lemma integrateParticle_quiet (E : Env) (sIdx i : ℕ) (w h dt : ℚ) (p : Particle)
    (hv : p.vel = (0, 0)) (ha : p.acc = (0, 0)) (hte : p.thermalEnergy = 0)
    (hr : p.radius ≠ 0) (hx0 : p.radius ≤ p.pos.1) (hx1 : p.pos.1 ≤ w - p.radius)
    (hy0 : p.radius ≤ p.pos.2) (hy1 : p.pos.2 ≤ h - p.radius) :
    integrateParticle E sIdx i w h dt p = p := by
  simp only [integrateParticle, hv, ha, hte]
  norm_num
  have h1 : ({ p with
      pos := p.pos
      vel := (0 : ℚ × ℚ)
      acc := (0 : ℚ × ℚ)
      thermalEnergy := 0 } : Particle) = p := by
    cases p
    simp_all
  rw [h1]
  exact handleWalls_noop w h p hr hx0 hx1 hy0 hy1

lemma integratePhase_quiet (E : Env) (sIdx : ℕ) (dt : ℚ) (s : SimState) (q1 q2 : Particle)
    (hps : s.particles = [q1, q2])
    (hv1 : q1.vel = (0, 0)) (ha1 : q1.acc = (0, 0)) (hte1 : q1.thermalEnergy = 0)
    (hr1 : q1.radius ≠ 0) (hx01 : q1.radius ≤ q1.pos.1) (hx11 : q1.pos.1 ≤ s.width - q1.radius)
    (hy01 : q1.radius ≤ q1.pos.2) (hy11 : q1.pos.2 ≤ s.height - q1.radius)
    (hv2 : q2.vel = (0, 0)) (ha2 : q2.acc = (0, 0)) (hte2 : q2.thermalEnergy = 0)
    (hr2 : q2.radius ≠ 0) (hx02 : q2.radius ≤ q2.pos.1) (hx12 : q2.pos.1 ≤ s.width - q2.radius)
    (hy02 : q2.radius ≤ q2.pos.2) (hy12 : q2.pos.2 ≤ s.height - q2.radius) :
    integratePhase E sIdx dt s = s := by
  simp only [integratePhase, hps, mapIdx, mapIdxFrom]
  rw [integrateParticle_quiet E sIdx 0 s.width s.height dt q1 hv1 ha1 hte1 hr1 hx01 hx11 hy01 hy11,
    integrateParticle_quiet E sIdx 1 s.width s.height dt q2 hv2 ha2 hte2 hr2 hx02 hx12 hy02 hy12]
  exact particles_set_self s [q1, q2] hps

lemma collideOnce_quiet (sq : ℚ → ℚ) (w h : ℚ) (q1 q2 : Particle) (L : ℚ)
    (hL0 : 0 < L) (hLmin : minDistOf q1 q2 ≤ L)
    (hsq : ∀ q : ℚ, q = (q2.pos.1 - q1.pos.1) * (q2.pos.1 - q1.pos.1) +
        (q2.pos.2 - q1.pos.2) * (q2.pos.2 - q1.pos.2) → sq q = L)
    (hr1 : q1.radius ≠ 0) (hx01 : q1.radius ≤ q1.pos.1) (hx11 : q1.pos.1 ≤ w - q1.radius)
    (hy01 : q1.radius ≤ q1.pos.2) (hy11 : q1.pos.2 ≤ h - q1.radius)
    (hr2 : q2.radius ≠ 0) (hx02 : q2.radius ≤ q2.pos.1) (hx12 : q2.pos.1 ≤ w - q2.radius)
    (hy02 : q2.radius ≤ q2.pos.2) (hy12 : q2.pos.2 ≤ h - q2.radius) :
    collideOnce sq w h [q1, q2] = [q1, q2] := by
  have hd1 : distOf sq (q2.pos.1 - q1.pos.1) (q2.pos.2 - q1.pos.2) = L := by
    simp only [distOf, hypotE]
    rw [hsq _ rfl, if_neg hL0.ne']
  have hd2 : distOf sq (q1.pos.1 - q2.pos.1) (q1.pos.2 - q2.pos.2) = L := by
    simp only [distOf, hypotE]
    rw [hsq _ (by ring), if_neg hL0.ne']
  have hminsymm : minDistOf q2 q1 = minDistOf q1 q2 := by
    simp only [minDistOf]
    ring
  simp only [collideOnce]
  rw [resolveCollisions_fix sq w h q1 q2
    (by rw [hd1]; exact not_lt.mpr hLmin)
    (by rw [hd2, hminsymm]; exact not_lt.mpr hLmin)]
  simp only [List.map_cons, List.map_nil]
  rw [handleWalls_noop w h q1 hr1 hx01 hx11 hy01 hy11,
    handleWalls_noop w h q2 hr2 hx02 hx12 hy02 hy12]

lemma collisionPhase_quiet (E : Env) (s : SimState) (q1 q2 : Particle) (L : ℚ)
    (hps : s.particles = [q1, q2])
    (hL0 : 0 < L) (hLmin : minDistOf q1 q2 ≤ L)
    (hsq : ∀ q : ℚ, q = (q2.pos.1 - q1.pos.1) * (q2.pos.1 - q1.pos.1) +
        (q2.pos.2 - q1.pos.2) * (q2.pos.2 - q1.pos.2) → E.sq q = L)
    (hr1 : q1.radius ≠ 0) (hx01 : q1.radius ≤ q1.pos.1) (hx11 : q1.pos.1 ≤ s.width - q1.radius)
    (hy01 : q1.radius ≤ q1.pos.2) (hy11 : q1.pos.2 ≤ s.height - q1.radius)
    (hr2 : q2.radius ≠ 0) (hx02 : q2.radius ≤ q2.pos.1) (hx12 : q2.pos.1 ≤ s.width - q2.radius)
    (hy02 : q2.radius ≤ q2.pos.2) (hy12 : q2.pos.2 ≤ s.height - q2.radius) :
    collisionPhase E s = s := by
  simp only [collisionPhase, hps]
  rw [iterateN_fix _ _ (collideOnce_quiet E.sq s.width s.height q1 q2 L hL0 hLmin hsq
    hr1 hx01 hx11 hy01 hy11 hr2 hx02 hx12 hy02 hy12) 5]
  exact particles_set_self s [q1, q2] hps

lemma classifyPhase_quiet (E : Env) (sIdx : ℕ) (s : SimState) (q1 q2 : Particle)
    (hps : s.particles = [q1, q2])
    (hv1 : q1.vel = (0, 0)) (hte1 : q1.thermalEnergy = 0) (hst1 : q1.state = Phase.liquid)
    (hv2 : q2.vel = (0, 0)) (hte2 : q2.thermalEnergy = 0) (hst2 : q2.state = Phase.liquid) :
    classifyPhase E sIdx s = s := by
  simp only [classifyPhase, hps, List.map_cons, List.map_nil]
  rw [classifyCore_quiet _ _ _ _ q1 hv1 hte1 hst1, classifyCore_quiet _ _ _ _ q2 hv2 hte2 hst2]
  exact particles_set_self s [q1, q2] hps

lemma substepF_quiet (E : Env) (sIdx : ℕ) (dt : ℚ) (s : SimState) (q1 q2 : Particle) (L : ℚ)
    (hps : s.particles = [q1, q2]) (hg : s.gravityOn = false) (hh : s.heatingOn = false)
    (hkT : s.params.kT = 0) (hs : 0 ≤ s.params.sigma)
    (hdt : 0 ≤ dt) (hL0 : 0 < L) (hL25 : 2.5 * s.params.sigma ≤ L)
    (hLmin : minDistOf q1 q2 ≤ L)
    (hsq : ∀ q : ℚ, q = (q2.pos.1 - q1.pos.1) * (q2.pos.1 - q1.pos.1) +
        (q2.pos.2 - q1.pos.2) * (q2.pos.2 - q1.pos.2) → E.sq q = L)
    (hsq0 : E.sq 0 = 0)
    (hv1 : q1.vel = (0, 0)) (ha1 : q1.acc = (0, 0)) (hl1 : q1.localNeighbors = 0)
    (hte1 : q1.thermalEnergy = 0) (hst1 : q1.state = Phase.liquid)
    (hr1 : q1.radius ≠ 0) (hx01 : q1.radius ≤ q1.pos.1) (hx11 : q1.pos.1 ≤ s.width - q1.radius)
    (hy01 : q1.radius ≤ q1.pos.2) (hy11 : q1.pos.2 ≤ s.height - q1.radius)
    (hv2 : q2.vel = (0, 0)) (ha2 : q2.acc = (0, 0)) (hl2 : q2.localNeighbors = 0)
    (hte2 : q2.thermalEnergy = 0) (hst2 : q2.state = Phase.liquid)
    (hr2 : q2.radius ≠ 0) (hx02 : q2.radius ≤ q2.pos.1) (hx12 : q2.pos.1 ≤ s.width - q2.radius)
    (hy02 : q2.radius ≤ q2.pos.2) (hy12 : q2.pos.2 ≤ s.height - q2.radius) :
    ∃ t, substepF E sIdx dt s = { s with lastThermoMs := t } := by
  refine ⟨(thermostat E sIdx s.params s.lastThermoMs [q1, q2]).2, ?_⟩
  have post : ∀ s2 : SimState, s2.particles = [q1, q2] → s2.gravityOn = false →
      s2.heatingOn = false → s2.width = s.width → s2.height = s.height →
      classifyPhase E sIdx (collisionPhase E (integratePhase E sIdx dt
        (buoyancyPhase (heatingPhase E sIdx dt (gravityPhase s2))))) = s2 := by
    intro s2 hps2 hg2 hh2 hw2 hht2
    have hx11a : q1.pos.1 ≤ s2.width - q1.radius := by rw [hw2]; exact hx11
    have hy11a : q1.pos.2 ≤ s2.height - q1.radius := by rw [hht2]; exact hy11
    have hx12a : q2.pos.1 ≤ s2.width - q2.radius := by rw [hw2]; exact hx12
    have hy12a : q2.pos.2 ≤ s2.height - q2.radius := by rw [hht2]; exact hy12
    rw [gravityPhase_off s2 hg2]
    rw [heatingPhase_quiet E sIdx dt s2 q1 q2 hh2 hps2 hdt hte1 hte2]
    rw [buoyancyPhase_off s2 hg2]
    rw [integratePhase_quiet E sIdx dt s2 q1 q2 hps2 hv1 ha1 hte1 hr1 hx01
      hx11a hy01 hy11a hv2 ha2 hte2 hr2 hx02 hx12a hy02 hy12a]
    rw [collisionPhase_quiet E s2 q1 q2 L hps2 hL0 hLmin hsq hr1 hx01 hx11a hy01 hy11a
      hr2 hx02 hx12a hy02 hy12a]
    rw [classifyPhase_quiet E sIdx s2 q1 q2 hps2 hv1 hte1 hst1 hv2 hte2 hst2]
  simp only [substepF]
  rw [computeForces_quiet E sIdx s q1 q2 L hps hkT hs hL25 hsq hsq0 hv1 hv2 ha1 hl1 ha2 hl2]
  exact post _ hps hg hh rfl rfl

lemma step_quiet (E : Env) (dt : ℚ) (s : SimState) (q1 q2 : Particle) (L : ℚ)
    (hps : s.particles = [q1, q2]) (hg : s.gravityOn = false) (hh : s.heatingOn = false)
    (hkT : s.params.kT = 0) (hs : 0 ≤ s.params.sigma)
    (hdt : 0 ≤ dt) (hL0 : 0 < L) (hL25 : 2.5 * s.params.sigma ≤ L)
    (hLmin : minDistOf q1 q2 ≤ L)
    (hsq : ∀ q : ℚ, q = (q2.pos.1 - q1.pos.1) * (q2.pos.1 - q1.pos.1) +
        (q2.pos.2 - q1.pos.2) * (q2.pos.2 - q1.pos.2) → E.sq q = L)
    (hsq0 : E.sq 0 = 0)
    (hv1 : q1.vel = (0, 0)) (ha1 : q1.acc = (0, 0)) (hl1 : q1.localNeighbors = 0)
    (hte1 : q1.thermalEnergy = 0) (hst1 : q1.state = Phase.liquid)
    (hr1 : q1.radius ≠ 0) (hx01 : q1.radius ≤ q1.pos.1) (hx11 : q1.pos.1 ≤ s.width - q1.radius)
    (hy01 : q1.radius ≤ q1.pos.2) (hy11 : q1.pos.2 ≤ s.height - q1.radius)
    (hv2 : q2.vel = (0, 0)) (ha2 : q2.acc = (0, 0)) (hl2 : q2.localNeighbors = 0)
    (hte2 : q2.thermalEnergy = 0) (hst2 : q2.state = Phase.liquid)
    (hr2 : q2.radius ≠ 0) (hx02 : q2.radius ≤ q2.pos.1) (hx12 : q2.pos.1 ≤ s.width - q2.radius)
    (hy02 : q2.radius ≤ q2.pos.2) (hy12 : q2.pos.2 ≤ s.height - q2.radius) :
    ∃ t, step E dt s = { s with lastThermoMs := t } := by
  have hsub : substepsOf E dt s = 1 := by
    simp [substepsOf, hg]
  simp only [step, hsub]
  have hr : List.range 1 = [0] := rfl
  simp only [hr, List.foldl_cons, List.foldl_nil]
  exact substepF_quiet E 0 (dt / ((1 : ℕ) : ℚ)) s q1 q2 L hps hg hh hkT hs
    (by norm_num; exact hdt) hL0 hL25 hLmin hsq hsq0
    hv1 ha1 hl1 hte1 hst1 hr1 hx01 hx11 hy01 hy11
    hv2 ha2 hl2 hte2 hst2 hr2 hx02 hx12 hy02 hy12

/-- C7: with `kT = 0`, gravity and heating off, and two resting liquid
particles inside the walls whose separation `L` exceeds the outermost
force cutoff `2.5 * sigma` and is at least the contact distance, the
particle list — positions included — is bit-for-bit unchanged by any
number of frames: no spurious force, drag, kick, thermostat rescale or
collision correction moves either particle. -/
theorem c7_no_spurious_drift (envs : ℕ → Env) (dts : ℕ → ℚ) (st : SimState)
    (q1 q2 : Particle) (L : ℚ)
    (hps : st.particles = [q1, q2]) (hg : st.gravityOn = false) (hh : st.heatingOn = false)
    (hkT : st.params.kT = 0) (hs : 0 ≤ st.params.sigma)
    (hdt : ∀ k, 0 ≤ dts k) (hL0 : 0 < L) (hL25 : 2.5 * st.params.sigma ≤ L)
    (hLmin : minDistOf q1 q2 ≤ L)
    (hsq : ∀ k, ∀ q : ℚ, q = (q2.pos.1 - q1.pos.1) * (q2.pos.1 - q1.pos.1) +
        (q2.pos.2 - q1.pos.2) * (q2.pos.2 - q1.pos.2) → (envs k).sq q = L)
    (hsq0 : ∀ k, (envs k).sq 0 = 0)
    (hv1 : q1.vel = (0, 0)) (ha1 : q1.acc = (0, 0)) (hl1 : q1.localNeighbors = 0)
    (hte1 : q1.thermalEnergy = 0) (hst1 : q1.state = Phase.liquid)
    (hr1 : q1.radius ≠ 0) (hx01 : q1.radius ≤ q1.pos.1) (hx11 : q1.pos.1 ≤ st.width - q1.radius)
    (hy01 : q1.radius ≤ q1.pos.2) (hy11 : q1.pos.2 ≤ st.height - q1.radius)
    (hv2 : q2.vel = (0, 0)) (ha2 : q2.acc = (0, 0)) (hl2 : q2.localNeighbors = 0)
    (hte2 : q2.thermalEnergy = 0) (hst2 : q2.state = Phase.liquid)
    (hr2 : q2.radius ≠ 0) (hx02 : q2.radius ≤ q2.pos.1) (hx12 : q2.pos.1 ≤ st.width - q2.radius)
    (hy02 : q2.radius ≤ q2.pos.2) (hy12 : q2.pos.2 ≤ st.height - q2.radius) :
    ∀ n, (runSteps envs dts st n).particles = [q1, q2] := by
  have key : ∀ n, ∃ t, runSteps envs dts st n = { st with lastThermoMs := t } := by
    intro n
    induction n with
    | zero =>
      refine ⟨st.lastThermoMs, ?_⟩
      cases st
      rfl
    | succ n ih =>
      obtain ⟨t, ht⟩ := ih
      have hq := step_quiet (envs n) (dts n) ({ st with lastThermoMs := t }) q1 q2 L
        hps hg hh hkT hs (hdt n) hL0 hL25 hLmin (hsq n) (hsq0 n)
        hv1 ha1 hl1 hte1 hst1 hr1 hx01 hx11 hy01 hy11
        hv2 ha2 hl2 hte2 hst2 hr2 hx02 hx12 hy02 hy12
      obtain ⟨t2, ht2⟩ := hq
      refine ⟨t2, ?_⟩
      have hrun : runSteps envs dts st (n + 1) =
          step (envs n) (dts n) (runSteps envs dts st n) := rfl
      rw [hrun, ht, ht2]
  intro n
  obtain ⟨t, ht⟩ := key n
  rw [ht]
  exact hps

/-- Particles of the C7 witness: resting liquid particles 30 apart
(outside every cutoff for `sigma = 10`). -/
def c7q1 : Particle :=
  { pos := (50, 50), vel := (0, 0), acc := (0, 0), mass := 1, radius := 3,
    state := .liquid, gasUntil := 0, localNeighbors := 0,
    thermalEnergy := 0, lastStateChange := 0 }

def c7q2 : Particle := { c7q1 with pos := (80, 50) }

/-- Environment of the C7 witness: square-root oracle correct at the
squared separation `900`, arbitrary (zero) clocks and noise streams. -/
def c7env : Env :=
  { sq := fun q => if q = 900 then 30 else 0
    clockT := fun _ => 0
    clockS := fun _ => 0
    kick := fun _ _ => (0, 0)
    heat := fun _ _ => ⟨0, 0, 0, 0⟩
    vib := fun _ _ => (0, 0) }

/-- Scenario parameters of the C7 witness: `kT = 0`, `sigma = 10`. -/
def c7params : SimParams :=
  { epsilon := 1, sigma := 10, viscosity := 1, hbStrength := 1, dipole := 1,
    kT := 0, cohLJ := 1, cohHB := 1, cohDP := 1 }

/-- Initial state of the C7 witness. -/
def c7st : SimState :=
  { particles := [c7q1, c7q2], width := 200, height := 100, params := c7params,
    gravityOn := false, heatingOn := false, heatAccel := 0, lastThermoMs := 0 }

theorem c7_witness :
    (runSteps (fun _ => c7env) (fun _ => 1 / 60) c7st 3).particles = [c7q1, c7q2] :=
  c7_no_spurious_drift (fun _ => c7env) (fun _ => 1 / 60) c7st c7q1 c7q2 30
    rfl rfl rfl rfl (by norm_num [c7st, c7params])
    (fun k => by norm_num) (by norm_num) (by norm_num [c7st, c7params])
    (by norm_num [minDistOf, orQ, c7q1, c7q2])
    (fun k q hq => by
      rw [hq]
      norm_num [c7env, c7q1, c7q2])
    (fun k => by norm_num [c7env])
    rfl rfl rfl rfl rfl
    (by norm_num [c7q1]) (by norm_num [c7q1]) (by norm_num [c7st, c7q1])
    (by norm_num [c7q1]) (by norm_num [c7st, c7q1])
    rfl rfl rfl rfl rfl
    (by norm_num [c7q2, c7q1]) (by norm_num [c7q2, c7q1]) (by norm_num [c7st, c7q2, c7q1])
    (by norm_num [c7q2, c7q1]) (by norm_num [c7st, c7q2, c7q1])
    3

/-! ### Wrap-around scenario (claim C8) -/

/-- Velocity closed form for the C8 scenario: drag `gamma = 0.3` at
`dt = 1/60` multiplies the horizontal speed by `199/200` each frame. -/
def velF (n : ℕ) : ℚ := 10 * (199 / 200) ^ n

/-- Position closed form for the C8 scenario. -/
def posF (n : ℕ) : ℚ := 100 + (199 / 6) * (1 - (199 / 200) ^ n)

/-- Acceleration stored on the particle after frame `n` (the drag term
of that frame; zero initially). -/
def accF : ℕ → ℚ × ℚ
  | 0 => (0, 0)
  | n + 1 => (-(3 / 10) * velF n, 0)

/-- The C8 particle after `n` frames. -/
def c8p (n : ℕ) : Particle :=
  { pos := (posF n, 50), vel := (velF n, 0), acc := accF n, mass := 1, radius := 3,
    state := .liquid, gasUntil := 0, localNeighbors := 0,
    thermalEnergy := 0, lastStateChange := 0 }

/-- Scenario parameters of C8: `kT = 0`, all cohesion coefficients 0. -/
def c8params : SimParams :=
  { epsilon := 1, sigma := 10, viscosity := 1, hbStrength := 0, dipole := 0,
    kT := 0, cohLJ := 0, cohHB := 0, cohDP := 0 }

/-- Initial state of the C8 scenario: one particle at `(100, 50)` with
velocity `(10, 0)` in a 400×100 box, no gravity, no heating. -/
def c8st : SimState :=
  { particles := [c8p 0], width := 400, height := 100, params := c8params,
    gravityOn := false, heatingOn := false, heatAccel := 0, lastThermoMs := 0 }

lemma forceAt_single (sq : ℚ → ℚ) (P : SimParams) (w h : ℚ) (p : Particle) :
    forceAt sq P w h [p] 0 = p := by
  simp only [forceAt]
  rw [foldl_const]
  · exact (accln_eta _).trans rfl
  · intro j hj r
    have hj1 := forNeighborsG_lt_length hj
    simp only [List.length_cons, List.length_nil] at hj1
    have hj0 : j = 0 := by omega
    subst hj0
    rw [if_pos rfl]

lemma resolveCollisions_one (sq : ℚ → ℚ) (w h : ℚ) (p : Particle) :
    resolveCollisions sq w h [p] = [p] := by
  have hrange : List.range ([p] : List Particle).length = [0] := rfl
  simp only [resolveCollisions, hrange, List.foldl_cons, List.foldl_nil]
  have hget : ([p] : List Particle).getD 0 default = p := rfl
  rw [hget]
  apply foldl_pairBody_fst
  intro procs2 _ j hj
  have hj1 := forNeighborsG_lt_length hj
  simp only [List.length_cons, List.length_nil] at hj1
  have hj0 : j = 0 := by omega
  subst hj0
  rw [pairBody_self]

lemma thermostat_frozen (sIdx : ℕ) (P : SimParams) (ps : List Particle) :
    thermostat c7env sIdx P 0 ps = (ps, 0) := by
  simp [thermostat, c7env]

/-- Generic one-particle record of the C8 run: position `(x, 50)`,
velocity `(v, 0)`, stored acceleration `(a1, a2)`. -/
def c8rec (x v a1 a2 : ℚ) : Particle :=
  { pos := (x, 50), vel := (v, 0), acc := (a1, a2), mass := 1, radius := 3,
    state := .liquid, gasUntil := 0, localNeighbors := 0,
    thermalEnergy := 0, lastStateChange := 0 }

lemma classifyCore_dwell (kT visc hgt : ℚ) (p : Particle)
    (hst : p.state = Phase.liquid) (hlsc : p.lastStateChange = 0)
    (hte : p.thermalEnergy = 0) :
    classifyCore kT visc hgt 0 p = p := by
  simp only [classifyCore, hst, hlsc, hte]
  norm_num

lemma c8_computeForces (x v a1 a2 : ℚ) :
    computeForces c7env 0 { c8st with particles := [c8rec x v a1 a2] } =
    { c8st with particles := [c8rec x v (-(3 / 10) * v) 0] } := by
  have h1 : forcesReset [c8rec x v a1 a2] = [c8rec x v 0 0] := by
    simp [forcesReset, c8rec]
  have h2 : forcesLoop c7env.sq c8params 400 100 [c8rec x v 0 0] = [c8rec x v 0 0] := by
    have hr : List.range ([c8rec x v 0 0] : List Particle).length = [0] := rfl
    simp only [forcesLoop, hr, List.map_cons, List.map_nil]
    rw [forceAt_single]
  have h3 : dragKick c7env 0 c8params [c8rec x v 0 0] = [c8rec x v (-(3 / 10) * v) 0] := by
    simp [dragKick, mapIdx, mapIdxFrom, c7env, c8rec, c8params]
    norm_num
  have h4 : thermostat c7env 0 c8params 0 [c8rec x v (-(3 / 10) * v) 0] =
      ([c8rec x v (-(3 / 10) * v) 0], 0) := thermostat_frozen 0 c8params _
  simp only [computeForces]
  rw [show c8st.params = c8params from rfl, show c8st.width = (400 : ℚ) from rfl,
    show c8st.height = (100 : ℚ) from rfl, show c8st.lastThermoMs = (0 : ℚ) from rfl]
  rw [h1, h2, h3, h4]

lemma heatingPhase_off_single (E : Env) (sIdx : ℕ) (dt : ℚ) (s : SimState) (p : Particle)
    (hh : s.heatingOn = false) (hps : s.particles = [p]) (hdt : 0 ≤ dt)
    (hte : p.thermalEnergy = 0) :
    heatingPhase E sIdx dt s = s := by
  simp only [heatingPhase]
  rw [if_neg (by simp [hh] : ¬(s.heatingOn = true)), hps]
  simp only [List.map_cons, List.map_nil]
  rw [te_noop p dt hte hdt 0.02 (by norm_num)]
  exact particles_set_self s [p] hps

lemma integratePhase_single (E : Env) (sIdx : ℕ) (dt : ℚ) (s : SimState) (p : Particle)
    (hps : s.particles = [p]) :
    integratePhase E sIdx dt s =
      { s with particles := [integrateParticle E sIdx 0 s.width s.height dt p] } := by
  simp only [integratePhase, hps, mapIdx, mapIdxFrom]

lemma collisionPhase_single (E : Env) (s : SimState) (p : Particle)
    (hps : s.particles = [p]) (hr : p.radius ≠ 0)
    (hx0 : p.radius ≤ p.pos.1) (hx1 : p.pos.1 ≤ s.width - p.radius)
    (hy0 : p.radius ≤ p.pos.2) (hy1 : p.pos.2 ≤ s.height - p.radius) :
    collisionPhase E s = s := by
  have hfix : collideOnce E.sq s.width s.height [p] = [p] := by
    simp only [collideOnce]
    rw [resolveCollisions_one]
    simp only [List.map_cons, List.map_nil]
    rw [handleWalls_noop s.width s.height p hr hx0 hx1 hy0 hy1]
  simp only [collisionPhase, hps]
  rw [iterateN_fix _ _ hfix 5]
  exact particles_set_self s [p] hps

lemma classifyPhase_single_dwell (sIdx : ℕ) (s : SimState) (p : Particle)
    (hps : s.particles = [p]) (hst : p.state = Phase.liquid)
    (hlsc : p.lastStateChange = 0) (hte : p.thermalEnergy = 0) :
    classifyPhase c7env sIdx s = s := by
  simp only [classifyPhase, hps, List.map_cons, List.map_nil]
  rw [show c7env.clockS sIdx = 0 from rfl]
  rw [classifyCore_dwell _ _ _ p hst hlsc hte]
  exact particles_set_self s [p] hps

lemma c8_integrate (x v : ℚ) (hx0 : 100 ≤ x) (hx1 : x ≤ 390) (hv0 : 0 ≤ v) (hv1 : v ≤ 10) :
    integrateParticle c7env 0 0 400 100 (1 / 60) (c8rec x v (-(3 / 10) * v) 0) =
    c8rec (x + 199 / 200 * v * (1 / 60)) (199 / 200 * v) (-(3 / 10) * v) 0 := by
  simp only [integrateParticle, c8rec]
  norm_num
  rw [handleWalls_noop 400 100 _ (by norm_num [c8rec]) (by norm_num [c8rec]; nlinarith)
    (by norm_num [c8rec]; nlinarith) (by norm_num [c8rec]) (by norm_num [c8rec])]
  simp only [c8rec, Particle.mk.injEq, Prod.mk.injEq]
  norm_num
  ring

lemma c8_substep (x v a1 a2 : ℚ) (hx0 : 100 ≤ x) (hx1 : x ≤ 390) (hv0 : 0 ≤ v)
    (hv1 : v ≤ 10) :
    substepF c7env 0 (1 / 60) { c8st with particles := [c8rec x v a1 a2] } =
    { c8st with particles :=
        [c8rec (x + 199 / 200 * v * (1 / 60)) (199 / 200 * v) (-(3 / 10) * v) 0] } := by
  have hxv1 : (c8rec x v (-(3 / 10) * v) 0).radius ≤ (c8rec x v (-(3 / 10) * v) 0).pos.1 := by
    norm_num [c8rec]; nlinarith
  simp only [substepF]
  rw [c8_computeForces x v a1 a2]
  rw [gravityPhase_off _ rfl]
  rw [heatingPhase_off_single c7env 0 (1 / 60) _ (c8rec x v (-(3 / 10) * v) 0) rfl rfl
    (by norm_num) rfl]
  rw [buoyancyPhase_off _ rfl]
  rw [integratePhase_single c7env 0 (1 / 60) _ (c8rec x v (-(3 / 10) * v) 0) rfl]
  rw [show ({ c8st with particles := [c8rec x v (-(3 / 10) * v) 0] } : SimState).width =
    (400 : ℚ) from rfl]
  rw [show ({ c8st with particles := [c8rec x v (-(3 / 10) * v) 0] } : SimState).height =
    (100 : ℚ) from rfl]
  rw [c8_integrate x v hx0 hx1 hv0 hv1]
  rw [collisionPhase_single c7env _ (c8rec (x + 199 / 200 * v * (1 / 60)) (199 / 200 * v)
      (-(3 / 10) * v) 0) rfl (by norm_num [c8rec])
    (by norm_num [c8rec]; nlinarith) (by norm_num [c8rec]; nlinarith)
    (by norm_num [c8rec]) (by norm_num [c8rec])]
  rw [classifyPhase_single_dwell 0 _ (c8rec (x + 199 / 200 * v * (1 / 60)) (199 / 200 * v)
      (-(3 / 10) * v) 0) rfl rfl rfl rfl]

lemma c8_step_frame (x v a1 a2 : ℚ) (hx0 : 100 ≤ x) (hx1 : x ≤ 390) (hv0 : 0 ≤ v)
    (hv1 : v ≤ 10) :
    step c7env (1 / 60) { c8st with particles := [c8rec x v a1 a2] } =
    { c8st with particles :=
        [c8rec (x + 199 / 200 * v * (1 / 60)) (199 / 200 * v) (-(3 / 10) * v) 0] } := by
  have hsub : substepsOf c7env (1 / 60) { c8st with particles := [c8rec x v a1 a2] } = 1 := by
    simp [substepsOf, c8st]
  simp only [step, hsub]
  have hr : List.range 1 = [0] := rfl
  simp only [hr, List.foldl_cons, List.foldl_nil]
  rw [show (1 / 60 : ℚ) / ((1 : ℕ) : ℚ) = 1 / 60 by norm_num]
  exact c8_substep x v a1 a2 hx0 hx1 hv0 hv1

lemma c8_run : ∀ n, runSteps (fun _ => c7env) (fun _ => (1 / 60 : ℚ)) c8st n =
    { c8st with particles := [c8p n] } := by
  intro n
  induction n with
  | zero => rfl
  | succ n ih =>
    have hrun : runSteps (fun _ => c7env) (fun _ => (1 / 60 : ℚ)) c8st (n + 1) =
        step c7env (1 / 60) (runSteps (fun _ => c7env) (fun _ => (1 / 60 : ℚ)) c8st n) := rfl
    rw [hrun, ih]
    have hpow0 : (0 : ℚ) ≤ (199 / 200) ^ n := by positivity
    have hpow1 : ((199 / 200 : ℚ)) ^ n ≤ 1 := pow_le_one₀ (by norm_num) (by norm_num)
    have hb1 : 100 ≤ posF n := by simp only [posF]; nlinarith
    have hb2 : posF n ≤ 390 := by simp only [posF]; nlinarith
    have hb3 : 0 ≤ velF n := by simp only [velF]; positivity
    have hb4 : velF n ≤ 10 := by simp only [velF]; nlinarith
    have hcp : c8p n = c8rec (posF n) (velF n) (accF n).1 (accF n).2 := by
      simp only [c8p, c8rec]
    rw [hcp, c8_step_frame (posF n) (velF n) (accF n).1 (accF n).2 hb1 hb2 hb3 hb4]
    have hX : posF n + 199 / 200 * velF n * (1 / 60) = posF (n + 1) := by
      simp only [posF, velF, pow_succ]
      ring
    have hV : 199 / 200 * velF n = velF (n + 1) := by
      simp only [velF, pow_succ]
      ring
    rw [hX, hV]
    rfl

/-- C8 (amended): the scenario's "wrap-around mode" does not exist —
`wrap` is a disabled no-op — and the fixed drag `gamma = 0.3` (applied
even at `kT = 0`) slows the particle every frame: starting at
`(100, 50)` with velocity `(10, 0)` and `dt = 1/60`, frame `n` ends at
`x = posF n = 100 + (199/6)(1 - (199/200)^n)`, so after 1 simulated
second (60 frames) the particle sits between 108 and 109 — about 8.6
to the right, not the claimed 10 (and no wrap ever occurs: the walls
are never reached). -/
theorem c8_wrap_and_drag :
    (∀ p : Particle, wrap p = p) ∧
    (∀ n, runSteps (fun _ => c7env) (fun _ => (1 / 60 : ℚ)) c8st n =
      { c8st with particles := [c8p n] }) ∧
    108 < posF 60 ∧ posF 60 < 109 := by
  refine ⟨fun p => rfl, c8_run, ?_, ?_⟩
  · norm_num [posF]
  · norm_num [posF]

/-- C8 counterexample to the spec's expectation: after 1 second the
particle's `x` is below 109, while "initial position + (10, 0) mod
width" is 110 — off by more than 1, far beyond integration tolerance. -/
theorem c8_counterexample :
    ((runSteps (fun _ => c7env) (fun _ => (1 / 60 : ℚ)) c8st 60).particles.getD 0
      default).pos.1 < 109 := by
  rw [c8_run 60]
  show posF 60 < 109
  norm_num [posF]

/-! ### Wall-bounds invariant (claim C9) -/

lemma set_getD_self : ∀ (l : List α) (i : ℕ) (d : α), l.set i (l.getD i d) = l
  | [], _, _ => rfl
  | _ :: _, 0, _ => rfl
  | a :: l, i + 1, d => congrArg (a :: ·) (set_getD_self l i d)

lemma map_set (f : α → β) : ∀ (l : List α) (i : ℕ) (a : α),
    (l.set i a).map f = (l.map f).set i (f a)
  | [], _, _ => rfl
  | _ :: _, 0, _ => rfl
  | b :: l, i + 1, a => congrArg (f b :: ·) (map_set f l i a)

lemma getD_map (f : α → β) : ∀ (l : List α) (i : ℕ) (d : α),
    (l.map f).getD i (f d) = f (l.getD i d)
  | [], _, _ => rfl
  | a :: _, 0, _ => rfl
  | a :: l, i + 1, d => getD_map f l i d

lemma pairMove_radius (h nx ny overlap : ℚ) (a b : Particle) :
    (pairMove h nx ny overlap a b).1.radius = a.radius ∧
    (pairMove h nx ny overlap a b).2.radius = b.radius := by
  simp only [pairMove]
  exact ⟨trivial, trivial⟩

lemma pairRecheck_radius (sq : ℚ → ℚ) (minDist : ℚ) (a1 b1 : Particle) :
    (pairRecheck sq minDist a1 b1).1.radius = a1.radius ∧
    (pairRecheck sq minDist a1 b1).2.radius = b1.radius := by
  simp only [pairRecheck]
  split_ifs <;> exact ⟨rfl, rfl⟩

lemma pairImpulse_radius (sq : ℚ → ℚ) (nx ny : ℚ) (a2 b2 : Particle) :
    (pairImpulse sq nx ny a2 b2).1.radius = a2.radius ∧
    (pairImpulse sq nx ny a2 b2).2.radius = b2.radius := by
  simp only [pairImpulse]
  split_ifs <;> exact ⟨rfl, rfl⟩

lemma pairResolve_radius (sq : ℚ → ℚ) (h : ℚ) (axy : ℚ × ℚ) (a b : Particle) :
    (pairResolve sq h axy a b).1.radius = a.radius ∧
    (pairResolve sq h axy a b).2.radius = b.radius := by
  simp only [pairResolve]
  constructor
  · rw [(pairImpulse_radius _ _ _ _ _).1, (pairRecheck_radius _ _ _ _).1,
      (pairMove_radius _ _ _ _ _ _).1]
  · rw [(pairImpulse_radius _ _ _ _ _).2, (pairRecheck_radius _ _ _ _).2,
      (pairMove_radius _ _ _ _ _ _).2]

lemma pairBody_map_radius (sq : ℚ → ℚ) (h : ℚ) (i : ℕ) (axy : ℚ × ℚ)
    (S : List Particle × List (ℕ × ℕ)) (j : ℕ) :
    (pairBody sq h i axy S j).1.map Particle.radius = S.1.map Particle.radius := by
  simp only [pairBody]
  split_ifs with h1 h2 h3
  · rfl
  · rfl
  · dsimp only
    rw [map_set, map_set, (pairResolve_radius _ _ _ _ _).1, (pairResolve_radius _ _ _ _ _).2]
    have hg1 : (S.1.getD i default).radius =
        (S.1.map Particle.radius).getD i (default : Particle).radius := (getD_map _ _ _ _).symm
    have hg2 : (S.1.getD j default).radius =
        (S.1.map Particle.radius).getD j (default : Particle).radius := (getD_map _ _ _ _).symm
    rw [hg1, hg2, set_getD_self, set_getD_self]
  · rfl

lemma foldl_pairBody_map_radius (sq : ℚ → ℚ) (h : ℚ) (i : ℕ) (axy : ℚ × ℚ)
    (js : List ℕ) :
    ∀ S : List Particle × List (ℕ × ℕ),
    (js.foldl (pairBody sq h i axy) S).1.map Particle.radius = S.1.map Particle.radius := by
  induction js with
  | nil => intro S; rfl
  | cons j js ih =>
    intro S
    rw [List.foldl_cons, ih, pairBody_map_radius]

lemma resolveCollisions_map_radius (sq : ℚ → ℚ) (w h : ℚ) (ps0 : List Particle) :
    (resolveCollisions sq w h ps0).map Particle.radius = ps0.map Particle.radius := by
  simp only [resolveCollisions]
  have key : ∀ (js : List ℕ) (S : List Particle × List (ℕ × ℕ)),
      ((js.foldl (fun S i =>
        let a := S.1.getD i default
        (forNeighborsG w h 24 ps0 a.pos.1 a.pos.2 16).foldl (pairBody sq h i a.pos) S) S)).1.map
        Particle.radius = S.1.map Particle.radius := by
    intro js
    induction js with
    | nil => intro S; rfl
    | cons j js ih =>
      intro S
      rw [List.foldl_cons, ih]
      exact foldl_pairBody_map_radius sq h j _ _ S
  exact key _ _

lemma map_radius_of_pointwise (f : Particle → Particle)
    (hf : ∀ p, (f p).radius = p.radius) (l : List Particle) :
    (l.map f).map Particle.radius = l.map Particle.radius := by
  rw [List.map_map]
  exact List.map_congr_left (fun p _ => hf p)

lemma mapIdxFrom_map_radius (f : ℕ → Particle → Particle)
    (hf : ∀ i p, (f i p).radius = p.radius) :
    ∀ (k : ℕ) (l : List Particle),
    (mapIdxFrom f k l).map Particle.radius = l.map Particle.radius := by
  intro k l
  induction l generalizing k with
  | nil => rfl
  | cons p l ih =>
    simp only [mapIdxFrom, List.map_cons, hf, ih]

lemma handleWalls_radius (w h : ℚ) (p : Particle) : (handleWalls w h p).radius = p.radius := rfl

lemma integrateParticle_radius (E : Env) (sIdx i : ℕ) (w h dt : ℚ) (p : Particle) :
    (integrateParticle E sIdx i w h dt p).radius = p.radius := rfl

lemma heatParticle_radius (E : Env) (sIdx i : ℕ) (w h heatAccel dt : ℚ) (p : Particle) :
    (heatParticle E sIdx i w h heatAccel dt p).radius = p.radius := by
  simp only [heatParticle]
  split_ifs <;> rfl

lemma classifyCore_pos_radius (kT visc hgt now : ℚ) (p : Particle) :
    (classifyCore kT visc hgt now p).pos = p.pos ∧
    (classifyCore kT visc hgt now p).radius = p.radius := by
  simp only [classifyCore]
  split_ifs <;> exact ⟨rfl, rfl⟩

lemma forceAt_radius (sq : ℚ → ℚ) (P : SimParams) (w h : ℚ) (ps : List Particle) (i : ℕ) :
    (forceAt sq P w h ps i).radius = (ps.getD i default).radius := rfl

lemma range_map_radius (l : List Particle) (F : ℕ → Particle)
    (hF : ∀ i, i < l.length → (F i).radius = (l.getD i default).radius) :
    ((List.range l.length).map F).map Particle.radius = l.map Particle.radius := by
  apply List.ext_getElem
  · simp
  · intro k h1 h2
    have hk : k < l.length := by simpa using h2
    simp only [List.getElem_map, List.getElem_range]
    rw [hF k hk, List.getD_eq_getElem l default hk]

lemma forcesLoop_map_radius (sq : ℚ → ℚ) (P : SimParams) (w h : ℚ) (ps : List Particle) :
    (forcesLoop sq P w h ps).map Particle.radius = ps.map Particle.radius := by
  simp only [forcesLoop]
  exact range_map_radius ps _ (fun i _ => forceAt_radius sq P w h ps i)

lemma forcesReset_map_radius (ps : List Particle) :
    (forcesReset ps).map Particle.radius = ps.map Particle.radius := by
  simp only [forcesReset]
  apply map_radius_of_pointwise
  intro p
  rfl

lemma dragKick_map_radius (E : Env) (sIdx : ℕ) (P : SimParams) (ps : List Particle) :
    (dragKick E sIdx P ps).map Particle.radius = ps.map Particle.radius := by
  simp only [dragKick, mapIdx]
  apply mapIdxFrom_map_radius
  intro i p
  rfl

lemma thermostat_map_radius (E : Env) (sIdx : ℕ) (P : SimParams) (lt : ℚ)
    (ps : List Particle) :
    (thermostat E sIdx P lt ps).1.map Particle.radius = ps.map Particle.radius := by
  simp only [thermostat]
  split_ifs <;> try rfl
  all_goals
    dsimp only
    apply map_radius_of_pointwise
    intro p
    split_ifs <;> rfl

lemma computeForces_map_radius (E : Env) (sIdx : ℕ) (s : SimState) :
    (computeForces E sIdx s).particles.map Particle.radius =
      s.particles.map Particle.radius := by
  simp only [computeForces]
  rw [thermostat_map_radius, dragKick_map_radius, forcesLoop_map_radius,
    forcesReset_map_radius]

lemma gravityPhase_map_radius (s : SimState) :
    (gravityPhase s).particles.map Particle.radius = s.particles.map Particle.radius := by
  unfold gravityPhase
  split
  · apply map_radius_of_pointwise
    intro p
    rfl
  · rfl

lemma heatingPhase_map_radius (E : Env) (sIdx : ℕ) (dt : ℚ) (s : SimState) :
    (heatingPhase E sIdx dt s).particles.map Particle.radius =
      s.particles.map Particle.radius := by
  unfold heatingPhase
  split
  · simp only [mapIdx]
    apply mapIdxFrom_map_radius
    intro i p
    exact heatParticle_radius E sIdx i _ _ _ dt p
  · apply map_radius_of_pointwise
    intro p
    rfl

lemma buoyancyPhase_map_radius (s : SimState) :
    (buoyancyPhase s).particles.map Particle.radius = s.particles.map Particle.radius := by
  unfold buoyancyPhase
  split
  · apply map_radius_of_pointwise
    intro p
    split_ifs <;> rfl
  · rfl

lemma integratePhase_map_radius (E : Env) (sIdx : ℕ) (dt : ℚ) (s : SimState) :
    (integratePhase E sIdx dt s).particles.map Particle.radius =
      s.particles.map Particle.radius := by
  simp only [integratePhase, mapIdx]
  apply mapIdxFrom_map_radius
  intro i p
  exact integrateParticle_radius E sIdx i _ _ dt p

lemma collideOnce_map_radius (sq : ℚ → ℚ) (w h : ℚ) (ps : List Particle) :
    (collideOnce sq w h ps).map Particle.radius = ps.map Particle.radius := by
  simp only [collideOnce]
  rw [map_radius_of_pointwise (handleWalls w h) (handleWalls_radius w h),
    resolveCollisions_map_radius]

lemma iterateN_collide_map_radius (sq : ℚ → ℚ) (w h : ℚ) :
    ∀ (n : ℕ) (ps : List Particle),
    (iterateN (collideOnce sq w h) n ps).map Particle.radius = ps.map Particle.radius := by
  intro n
  induction n with
  | zero => intro ps; rfl
  | succ n ih =>
    intro ps
    rw [iterateN, ih, collideOnce_map_radius]

lemma classifyPhase_map_radius (E : Env) (sIdx : ℕ) (s : SimState) :
    (classifyPhase E sIdx s).particles.map Particle.radius =
      s.particles.map Particle.radius := by
  simp only [classifyPhase]
  apply map_radius_of_pointwise
  intro p
  exact (classifyCore_pos_radius _ _ _ _ p).2

lemma handleWalls_bounds (w h : ℚ) (p : Particle)
    (hw : 2 * orQ p.radius 3 ≤ w) (hh : 2 * orQ p.radius 3 ≤ h) :
    orQ p.radius 3 ≤ (handleWalls w h p).pos.1 ∧
    (handleWalls w h p).pos.1 ≤ w - orQ p.radius 3 ∧
    orQ p.radius 3 ≤ (handleWalls w h p).pos.2 ∧
    (handleWalls w h p).pos.2 ≤ h - orQ p.radius 3 := by
  simp only [handleWalls]
  split_ifs <;> refine ⟨?_, ?_, ?_, ?_⟩ <;> dsimp only <;> simp_all only [not_lt] <;> linarith

lemma iterateN_succ_last (f : α → α) : ∀ (n : ℕ) (a : α),
    iterateN f (n + 1) a = f (iterateN f n a) := by
  intro n
  induction n with
  | zero => intro a; rfl
  | succ n ih =>
    intro a
    rw [show iterateN f (n + 1 + 1) a = iterateN f (n + 1) (f a) from rfl, ih,
      show iterateN f (n + 1) a = iterateN f n (f a) from rfl]

lemma collisionPhase_map_radius (E : Env) (s : SimState) :
    (collisionPhase E s).particles.map Particle.radius = s.particles.map Particle.radius := by
  simp only [collisionPhase]
  exact iterateN_collide_map_radius E.sq s.width s.height 5 s.particles

lemma substepF_map_radius (E : Env) (sIdx : ℕ) (dt : ℚ) (s : SimState) :
    (substepF E sIdx dt s).particles.map Particle.radius =
      s.particles.map Particle.radius := by
  simp only [substepF]
  rw [classifyPhase_map_radius, collisionPhase_map_radius, integratePhase_map_radius,
    buoyancyPhase_map_radius, heatingPhase_map_radius, gravityPhase_map_radius,
    computeForces_map_radius]

lemma substepF_width (E : Env) (sIdx : ℕ) (dt : ℚ) (s : SimState) :
    (substepF E sIdx dt s).width = s.width := by
  have hg : ∀ t : SimState, (gravityPhase t).width = t.width := fun t => by
    unfold gravityPhase; split <;> rfl
  have hht : ∀ t : SimState, (heatingPhase E sIdx dt t).width = t.width := fun t => by
    unfold heatingPhase; split <;> rfl
  have hb : ∀ t : SimState, (buoyancyPhase t).width = t.width := fun t => by
    unfold buoyancyPhase; split <;> rfl
  have hcf : ∀ t : SimState, (computeForces E sIdx t).width = t.width := fun t => rfl
  have hi : ∀ t : SimState, (integratePhase E sIdx dt t).width = t.width := fun t => rfl
  have hco : ∀ t : SimState, (collisionPhase E t).width = t.width := fun t => by
    simp only [collisionPhase]
  have hcl : ∀ t : SimState, (classifyPhase E sIdx t).width = t.width := fun t => rfl
  simp only [substepF, hcl, hco, hi, hb, hht, hg, hcf]

lemma substepF_height (E : Env) (sIdx : ℕ) (dt : ℚ) (s : SimState) :
    (substepF E sIdx dt s).height = s.height := by
  have hg : ∀ t : SimState, (gravityPhase t).height = t.height := fun t => by
    unfold gravityPhase; split <;> rfl
  have hht : ∀ t : SimState, (heatingPhase E sIdx dt t).height = t.height := fun t => by
    unfold heatingPhase; split <;> rfl
  have hb : ∀ t : SimState, (buoyancyPhase t).height = t.height := fun t => by
    unfold buoyancyPhase; split <;> rfl
  have hcf : ∀ t : SimState, (computeForces E sIdx t).height = t.height := fun t => rfl
  have hi : ∀ t : SimState, (integratePhase E sIdx dt t).height = t.height := fun t => rfl
  have hco : ∀ t : SimState, (collisionPhase E t).height = t.height := fun t => by
    simp only [collisionPhase]
  have hcl : ∀ t : SimState, (classifyPhase E sIdx t).height = t.height := fun t => rfl
  simp only [substepF, hcl, hco, hi, hb, hht, hg, hcf]

lemma bounds_after_collideOnce (sq : ℚ → ℚ) (w h : ℚ) (ps : List Particle)
    (hr : ∀ r ∈ ps.map Particle.radius, 2 * orQ r 3 ≤ w ∧ 2 * orQ r 3 ≤ h) :
    ∀ q ∈ collideOnce sq w h ps,
      orQ q.radius 3 ≤ q.pos.1 ∧ q.pos.1 ≤ w - orQ q.radius 3 ∧
      orQ q.radius 3 ≤ q.pos.2 ∧ q.pos.2 ≤ h - orQ q.radius 3 := by
  intro q hq
  simp only [collideOnce, List.mem_map] at hq
  obtain ⟨p, hp, rfl⟩ := hq
  have hpr : p.radius ∈ (resolveCollisions sq w h ps).map Particle.radius :=
    List.mem_map_of_mem _ hp
  rw [resolveCollisions_map_radius] at hpr
  obtain ⟨hw, hh⟩ := hr p.radius hpr
  exact handleWalls_bounds w h p hw hh

lemma classifyPhase_bounds (E : Env) (sIdx : ℕ) (w h : ℚ) (s2 : SimState)
    (hb : ∀ q ∈ s2.particles,
      orQ q.radius 3 ≤ q.pos.1 ∧ q.pos.1 ≤ w - orQ q.radius 3 ∧
      orQ q.radius 3 ≤ q.pos.2 ∧ q.pos.2 ≤ h - orQ q.radius 3) :
    ∀ q ∈ (classifyPhase E sIdx s2).particles,
      orQ q.radius 3 ≤ q.pos.1 ∧ q.pos.1 ≤ w - orQ q.radius 3 ∧
      orQ q.radius 3 ≤ q.pos.2 ∧ q.pos.2 ≤ h - orQ q.radius 3 := by
  intro q hq
  simp only [classifyPhase, List.mem_map] at hq
  obtain ⟨p, hp, rfl⟩ := hq
  have hb2 := hb p hp
  rw [(classifyCore_pos_radius _ _ _ _ p).1, (classifyCore_pos_radius _ _ _ _ p).2]
  exact hb2

lemma collisionPhase_bounds (E : Env) (s2 : SimState)
    (hr : ∀ r ∈ s2.particles.map Particle.radius,
      2 * orQ r 3 ≤ s2.width ∧ 2 * orQ r 3 ≤ s2.height) :
    ∀ q ∈ (collisionPhase E s2).particles,
      orQ q.radius 3 ≤ q.pos.1 ∧ q.pos.1 ≤ s2.width - orQ q.radius 3 ∧
      orQ q.radius 3 ≤ q.pos.2 ∧ q.pos.2 ≤ s2.height - orQ q.radius 3 := by
  intro q hq
  simp only [collisionPhase] at hq
  have h5 : iterateN (collideOnce E.sq s2.width s2.height) 5 s2.particles =
      collideOnce E.sq s2.width s2.height
        (iterateN (collideOnce E.sq s2.width s2.height) 4 s2.particles) :=
    iterateN_succ_last _ 4 _
  rw [h5] at hq
  refine bounds_after_collideOnce E.sq s2.width s2.height _ ?_ q hq
  rw [iterateN_collide_map_radius]
  exact hr
lemma substepF_bounds (E : Env) (sIdx : ℕ) (dt : ℚ) (s : SimState)
    (hr : ∀ r ∈ s.particles.map Particle.radius,
      2 * orQ r 3 ≤ s.width ∧ 2 * orQ r 3 ≤ s.height) :
    ∀ q ∈ (substepF E sIdx dt s).particles,
      orQ q.radius 3 ≤ q.pos.1 ∧ q.pos.1 ≤ s.width - orQ q.radius 3 ∧
      orQ q.radius 3 ≤ q.pos.2 ∧ q.pos.2 ≤ s.height - orQ q.radius 3 := by
  intro q hq
  have hq2 : q ∈ (classifyPhase E sIdx (collisionPhase E (integratePhase E sIdx dt
      (buoyancyPhase (heatingPhase E sIdx dt
        (gravityPhase (computeForces E sIdx s))))))).particles := hq
  have h1w : ∀ t : SimState, (buoyancyPhase t).width = t.width := fun t => by
    unfold buoyancyPhase; split <;> rfl
  have h2w : ∀ t : SimState, (heatingPhase E sIdx dt t).width = t.width := fun t => by
    unfold heatingPhase; split <;> rfl
  have h3w : ∀ t : SimState, (gravityPhase t).width = t.width := fun t => by
    unfold gravityPhase; split <;> rfl
  have h1h : ∀ t : SimState, (buoyancyPhase t).height = t.height := fun t => by
    unfold buoyancyPhase; split <;> rfl
  have h2h : ∀ t : SimState, (heatingPhase E sIdx dt t).height = t.height := fun t => by
    unfold heatingPhase; split <;> rfl
  have h3h : ∀ t : SimState, (gravityPhase t).height = t.height := fun t => by
    unfold gravityPhase; split <;> rfl
  have hwI : (integratePhase E sIdx dt (buoyancyPhase (heatingPhase E sIdx dt
      (gravityPhase (computeForces E sIdx s))))).width = s.width := by
    simp only [show ∀ t : SimState, (integratePhase E sIdx dt t).width = t.width from
      fun t => rfl, h1w, h2w, h3w,
      show ∀ t : SimState, (computeForces E sIdx t).width = t.width from fun t => rfl]
  have hhI : (integratePhase E sIdx dt (buoyancyPhase (heatingPhase E sIdx dt
      (gravityPhase (computeForces E sIdx s))))).height = s.height := by
    simp only [show ∀ t : SimState, (integratePhase E sIdx dt t).height = t.height from
      fun t => rfl, h1h, h2h, h3h,
      show ∀ t : SimState, (computeForces E sIdx t).height = t.height from fun t => rfl]
  have hmapI : (integratePhase E sIdx dt (buoyancyPhase (heatingPhase E sIdx dt
      (gravityPhase (computeForces E sIdx s))))).particles.map Particle.radius =
      s.particles.map Particle.radius := by
    rw [integratePhase_map_radius, buoyancyPhase_map_radius, heatingPhase_map_radius,
      gravityPhase_map_radius, computeForces_map_radius]
  have hcb := collisionPhase_bounds E (integratePhase E sIdx dt (buoyancyPhase
      (heatingPhase E sIdx dt (gravityPhase (computeForces E sIdx s)))))
    (by rw [hmapI, hwI, hhI]; exact hr)
  rw [hwI, hhI] at hcb
  exact classifyPhase_bounds E sIdx s.width s.height _ hcb q hq2

lemma substepsOf_pos (E : Env) (dt : ℚ) (st : SimState) : 1 ≤ substepsOf E dt st := by
  unfold substepsOf
  split
  · have h1 : ∀ X : ℤ, (1 : ℕ) ≤ (min 12 (max 2 X)).toNat := by
      intro X
      have h2 : (2 : ℤ) ≤ min 12 (max 2 X) := le_min (by norm_num) (le_max_left _ _)
      omega
    exact h1 _
  · exact le_rfl

lemma foldl_substepF_bounds (E : Env) (dtStep : ℚ) (W H : ℚ) :
    ∀ (lst : List ℕ) (s : SimState), lst ≠ [] → s.width = W → s.height = H →
    (∀ r ∈ s.particles.map Particle.radius, 2 * orQ r 3 ≤ W ∧ 2 * orQ r 3 ≤ H) →
    ∀ q ∈ (lst.foldl (fun s2 i => substepF E i dtStep s2) s).particles,
      orQ q.radius 3 ≤ q.pos.1 ∧ q.pos.1 ≤ W - orQ q.radius 3 ∧
      orQ q.radius 3 ≤ q.pos.2 ∧ q.pos.2 ≤ H - orQ q.radius 3 := by
  intro lst
  induction lst with
  | nil => intro s hne; exact absurd rfl hne
  | cons i rest ih =>
    intro s hne hw hh hrad
    rw [List.foldl_cons]
    cases rest with
    | nil =>
      simp only [List.foldl_nil]
      intro q hq
      have hb := substepF_bounds E i dtStep s (by rw [hw, hh]; exact hrad) q hq
      rw [hw, hh] at hb
      exact hb
    | cons j rest2 =>
      apply ih (substepF E i dtStep s) (by simp)
      · rw [substepF_width, hw]
      · rw [substepF_height, hh]
      · rw [substepF_map_radius]; exact hrad

/-- C9: after every `step(dt)` call, provided the domain width and
height each admit every particle's effective radius twice
(`2 * (radius || 3) ≤ width, height`), every particle of the resulting
state sits inside the domain with margin its effective radius:
`handleWalls` is re-applied after integration and after each of the 5
collision-resolution iterations of every substep, and the trailing
classifier never moves a particle, so the last wall clamp's guarantee
survives to the end of the step. -/
theorem c9_walls_margin_invariant (E : Env) (dt : ℚ) (st : SimState)
    (hr : ∀ p ∈ st.particles,
      2 * orQ p.radius 3 ≤ st.width ∧ 2 * orQ p.radius 3 ≤ st.height) :
    ∀ q ∈ (step E dt st).particles,
      orQ q.radius 3 ≤ q.pos.1 ∧ q.pos.1 ≤ st.width - orQ q.radius 3 ∧
      orQ q.radius 3 ≤ q.pos.2 ∧ q.pos.2 ≤ st.height - orQ q.radius 3 := by
  have hrad : ∀ r ∈ st.particles.map Particle.radius,
      2 * orQ r 3 ≤ st.width ∧ 2 * orQ r 3 ≤ st.height := by
    intro r hrm
    rw [List.mem_map] at hrm
    obtain ⟨p, hp, rfl⟩ := hrm
    exact hr p hp
  have hne : List.range (substepsOf E dt st) ≠ [] := by
    have h1 := substepsOf_pos E dt st
    simp only [ne_eq, List.range_eq_nil]
    omega
  simp only [step]
  exact foldl_substepF_bounds E (dt / (substepsOf E dt st : ℚ)) st.width st.height
    (List.range (substepsOf E dt st)) st hne rfl rfl hrad

theorem c9_witness :
    orQ (c8p 1).radius 3 ≤ (c8p 1).pos.1 ∧
    (c8p 1).pos.1 ≤ 400 - orQ (c8p 1).radius 3 ∧
    orQ (c8p 1).radius 3 ≤ (c8p 1).pos.2 ∧
    (c8p 1).pos.2 ≤ 100 - orQ (c8p 1).radius 3 := by
  have hmem : c8p 1 ∈ (step c7env (1 / 60) c8st).particles := by
    have h1 : step c7env (1 / 60) c8st = { c8st with particles := [c8p 1] } := c8_run 1
    rw [h1]
    simp
  exact c9_walls_margin_invariant c7env (1 / 60) c8st
    (by
      intro p hp
      simp only [c8st, List.mem_cons, List.not_mem_nil, or_false] at hp
      subst hp
      norm_num [c8p, orQ, c8st])
    (c8p 1) hmem

end IMFS
